import Mathlib

/-!
Shallow embedding of the cluster-simulation engine of the repository
(`src/App.tsx`): data model, partition rebalancer, controller election,
replication/failover resolver, tick simulator and the user-facing actions,
together with theorems settling the specification claims.

Numbers are embedded as `Rat` (the source uses JS numbers with halving and
comparisons only), machine identities as `String` (the source generates random
string ids), broker liveness as a function `Nat → Bool` (the source keeps a
record keyed by the fixed broker ids, with absent keys reading as `undefined`,
i.e. falsy).  Optional (`?:`) fields of the source interfaces are embedded as
`Option`; the JS `x || d` fallbacks are embedded by explicit helpers.
Randomness (`Math.random`) and wall-clock reads (`Date.now()`) are embedded as
explicit parameters of the operations that consume them.
-/

/-- `types.ts`: `enum NodeType`. -/

inductive NodeType where
  | PRODUCER
  | TOPIC
  | CONSUMER
deriving DecidableEq, Repr

/-- `types.ts`: `type ClusterMode = 'ZOOKEEPER' | 'KRAFT'`. -/
inductive ClusterMode where
  | ZOOKEEPER
  | KRAFT
deriving DecidableEq, Repr

/-- `GameState.gameStatus` values used by `App.tsx`. -/
inductive GameStatus where
  | IDLE
  | PLAYING
  | GAME_OVER
deriving DecidableEq, Repr

/-- `types.ts`: `ZkLogEntry.action`. -/
inductive ZkAction where
  | REGISTER
  | ELECT
  | UPDATE
  | DELETE
deriving DecidableEq, Repr

/-- `types.ts`: `MetadataRecord.type`. -/
inductive MetadataRecordType where
  | BROKER_CHANGE
  | TOPIC_CONFIG
  | PARTITION_CHANGE
deriving DecidableEq, Repr

/-- `types.ts`: `interface NodeEntity`.  The rendering-only position fields
`x`/`y` are omitted (owned by the rendering collaborator, never read by the
engine).  Optional fields are `Option`, mirroring the `?:` declarations. -/
structure NodeEntity where
  id : String
  type : NodeType
  name : String
  productionRate : Option Rat
  processingRate : Option Rat
  currentLag : Option Rat
  partitions : Option Nat
  brokerId : Option Nat
  replicationFactor : Option Nat
  replicas : Option (List Nat)
  activeLeaderId : Option Nat
  assignedPartitions : Option (List Nat)
  isRebalancing : Bool
  isIdle : Bool
  isOffline : Bool
  groupId : Option String
deriving DecidableEq, Repr

/-- `types.ts`: `interface Connection`. -/
structure Connection where
  id : String
  sourceId : String
  targetId : String
deriving DecidableEq, Repr

/-- `types.ts`: `interface ZkLogEntry`. -/
structure ZkLogEntry where
  id : String
  timestamp : Nat
  action : ZkAction
  path : String
  data : Option String
deriving DecidableEq, Repr

/-- `types.ts`: `interface MetadataRecord`. -/
structure MetadataRecord where
  offset : Nat
  timestamp : Nat
  type : MetadataRecordType
  key : String
  value : String
deriving DecidableEq, Repr

/-- `types.ts`: `interface GameState` (the fields the engine reads/writes). -/
structure GameState where
  nodes : List NodeEntity
  connections : List Connection
  totalMessagesProcessed : Int
  globalLag : Rat
  isRunning : Bool
  gameStatus : GameStatus
  level : Nat
  score : Nat
  clusterMode : ClusterMode
  isZookeeperOffline : Bool
  activeControllerId : Option Nat
  zkLogs : List ZkLogEntry
  raftLogs : List MetadataRecord
deriving DecidableEq, Repr

/-- `App.tsx`: `const BROKERS = [101, 102, 103]`. -/
def BROKERS : List Nat := [101, 102, 103]

/-- JS `x || 0` on an optional numeric field (`p.productionRate || 0`,
`newNode.currentLag || 0`, ...): `undefined` and `0` both read as `0`. -/
def jsQ (o : Option Rat) : Rat := o.getD 0

/-- JS `topic.partitions || 1`: `undefined` and `0` both read as `1`. -/
def jsNat1 (o : Option Nat) : Nat :=
  match o with
  | none => 1
  | some v => if v = 0 then 1 else v

/-- JS `xs || []` on an optional list field (`newNode.replicas || []`,
`c.assignedPartitions || []`). -/
def jsList (o : Option (List Nat)) : List Nat := o.getD []

/-- JS `currentLeader ? brokerStates[currentLeader] : false`: a `null` (or the
falsy `0`) leader reads as dead, otherwise the liveness record is consulted. -/
def jsLeaderAlive (bs : Nat → Bool) (o : Option Nat) : Bool :=
  match o with
  | none => false
  | some l => if l = 0 then false else bs l

/-- `App.tsx` `addZkLog`: prepend an entry and keep the last 10
(`[entry, ...prev.zkLogs].slice(0, 10)`). -/
def addZkLog (eid : String) (ts : Nat) (action : ZkAction) (path : String)
    (data : Option String) (s : GameState) : GameState :=
  { s with zkLogs := (({ id := eid, timestamp := ts, action := action,
                         path := path, data := data } : ZkLogEntry) :: s.zkLogs).take 10 }

/-- `App.tsx` `appendMetadataRecord`: append a record whose offset is the
current length of the KRaft metadata log. -/
def appendMetadataRecord (ts : Nat) (ty : MetadataRecordType) (key : String)
    (value : String) (s : GameState) : GameState :=
  { s with raftLogs := s.raftLogs ++ [{ offset := s.raftLogs.length, timestamp := ts,
                                        type := ty, key := key, value := value }] }

/-- `App.tsx` `pickBrokers`: with a (truthy) preferred leader, the leader is
kept first and the remainder is filled from a random shuffle of the other
brokers; otherwise a random shuffle of the pool is truncated.  The random
`sort` outcome is taken as the explicit parameter `shuffled`. -/
def pickBrokers (count : Nat) (preferredFirst : Option Nat)
    (shuffled : List Nat) : List Nat :=
  match preferredFirst with
  | some p => if p = 0 then shuffled.take count else p :: shuffled.take (count - 1)
  | none => shuffled.take count

/-! ### List-index machinery

`triggerRebalance` mutates `newNodes` by index.  `listModify f k l` is the
functional rendering of `newNodes[k] = f(newNodes[k])`, and `idxWhere p l 0`
of `l.map((n, idx) => ({n, idx})).filter(p).map(x => x.idx)`. -/

/-- Apply `f` at position `k` (no-op out of bounds), i.e. `l[k] = f(l[k])`. -/
def listModify (f : α → α) : Nat → List α → List α
  | _, [] => []
  | 0, a :: as => f a :: as
  | n + 1, a :: as => a :: listModify f n as

/-- The indices (counted from `k`) of the elements satisfying `p`. -/
def idxWhere (p : α → Bool) : List α → Nat → List Nat
  | [], _ => []
  | a :: as, k => if p a then k :: idxWhere p as (k + 1) else idxWhere p as (k + 1)

/-- The filter selecting the consumers connected to the topic with id `tid`
(`n.type === NodeType.CONSUMER && connections.some(c => c.sourceId === topic.id
&& c.targetId === n.id)`). -/
def isTopicConsumerOf (conns : List Connection) (tid : String) (n : NodeEntity) : Bool :=
  n.type == NodeType.CONSUMER &&
    conns.any (fun c => c.sourceId == tid && c.targetId == n.id)

/-- `App.tsx` `triggerRebalance`: the positions (in store order) of the
consumers connected to the topic with id `tid`. -/
def consumerIdx (nodes : List NodeEntity) (conns : List Connection) (tid : String) :
    List Nat :=
  idxWhere (isTopicConsumerOf conns tid) nodes 0

/-- The reset applied to each connected consumer at the start of a topic's
rebalance pass: `{ assignedPartitions: [], isRebalancing: true, isIdle: true }`. -/
def clearConsumer (n : NodeEntity) : NodeEntity :=
  { n with assignedPartitions := some [], isRebalancing := true, isIdle := true }

/-- The reset loop of a rebalance pass
(`topicConsumersIndices.forEach(({idx}) => { newNodes[idx] = ... })`). -/
def clearAt (indices : List Nat) (nodes : List NodeEntity) : List NodeEntity :=
  indices.foldl (fun acc idx => listModify clearConsumer idx acc) nodes

/-- One iteration of the round-robin distribution loop: partition `i` goes to
the consumer at position `i % consumerCount`, appending to its assignment set
and clearing its idle flag. -/
def assignStep (indices : List Nat) (i : Nat) (nodes : List NodeEntity) :
    List NodeEntity :=
  match indices[i % indices.length]? with
  | some gidx =>
      listModify (fun node =>
        { node with assignedPartitions := some (jsList node.assignedPartitions ++ [i]),
                    isIdle := false }) gidx nodes
  | none => nodes

/-- The distribution loop `for (let i = 0; i < partitionCount; i++) ...`. -/
def assignAll (indices : List Nat) (partitionCount : Nat)
    (nodes : List NodeEntity) : List NodeEntity :=
  (List.range partitionCount).foldl (fun acc i => assignStep indices i acc) nodes

/-- One topic's pass of `App.tsx` `triggerRebalance`: compute the connected
consumers, reset their assignments, then round-robin the partitions if any
consumer is connected. -/
def rebalancePass (conns : List Connection) (nodes : List NodeEntity)
    (topic : NodeEntity) : List NodeEntity :=
  let indices := consumerIdx nodes conns topic.id
  let partitionCount := jsNat1 topic.partitions
  let cleared := clearAt indices nodes
  if 0 < indices.length then assignAll indices partitionCount cleared else cleared

/-- `App.tsx` `triggerRebalance`: iterate the per-topic pass over the topics in
store order.  Note the reset happens inside each topic's own pass. -/
def triggerRebalance (nodes : List NodeEntity) (conns : List Connection) :
    List NodeEntity :=
  (nodes.filter (fun n => n.type == NodeType.TOPIC)).foldl (rebalancePass conns) nodes

/-! ### Tick simulator (`App.tsx` game loop) -/

/-- Inflow of a topic: sum of `productionRate || 0` over the producers with a
connection into the topic. -/
def inflowOf (s : GameState) (node : NodeEntity) : Rat :=
  (s.nodes.filter (fun n => n.type == NodeType.PRODUCER &&
      s.connections.any (fun c => c.sourceId == n.id && c.targetId == node.id))).foldl
    (fun sum p => sum + jsQ p.productionRate) 0

/-- Outflow capacity of a topic: sum of `processingRate || 0` over the
connected consumers that hold at least one assigned partition
(`if (c.assignedPartitions && c.assignedPartitions.length > 0)`). -/
def capacityOf (s : GameState) (node : NodeEntity) : Rat :=
  (s.nodes.filter (fun n => n.type == NodeType.CONSUMER &&
      s.connections.any (fun c => c.sourceId == node.id && c.targetId == n.id))).foldl
    (fun tot c =>
      if 0 < (jsList c.assignedPartitions).length then tot + jsQ c.processingRate else tot) 0

/-- The per-node body of the game-loop `prev.nodes.map(...)`: replication &
failover logic followed by the processing logic.  Returns the updated node,
the pending KRaft `PARTITION_CHANGE` record (key, value) queued by a leader
change in KRAFT mode, and the tick's processed-message contribution. -/
def tickNode (bs : Nat → Bool) (prev : GameState) (node : NodeEntity) :
    NodeEntity × Option (String × String) × Int :=
  if node.type == NodeType.TOPIC then
    let replicas := jsList node.replicas
    let step1 : NodeEntity × Option (String × String) :=
      if jsLeaderAlive bs node.activeLeaderId then ({ node with isOffline := false }, none)
      else if prev.activeControllerId = none then ({ node with isOffline := true }, none)
      else
        match replicas.find? bs with
        | some cand =>
            ({ node with activeLeaderId := some cand, brokerId := some cand,
                         isOffline := false },
             if node.activeLeaderId == some cand then none
             else if prev.clusterMode == ClusterMode.KRAFT then
               some ("Topic:" ++ node.name, "New Leader: " ++ toString cand)
             else none)
        | none => ({ node with isOffline := true }, none)
    let node1 := step1.1
    if node1.isOffline then (node1, step1.2, 0)
    else
      let inflow := inflowOf prev node
      let totalProcessingCapacity := capacityOf prev node
      let currentTopicLag := jsQ node1.currentLag + inflow * (1 / 2)
      let actualConsumed := min currentTopicLag (totalProcessingCapacity * (1 / 2))
      let newLag := currentTopicLag - actualConsumed
      ({ node1 with currentLag := some (max 0 newLag) }, step1.2,
       Rat.floor (actualConsumed * 10))
  else (node, none, 0)

/-- One interval firing of the game loop: skip if any node is mid-rebalance
("stop-the-world"), otherwise update every node, recompute the global lag as
the mean over online topics, derive the game status and the running flag, and
apply the queued KRaft records. -/
def tickStep (bs : Nat → Bool) (ts : Nat) (s : GameState) : GameState :=
  if s.nodes.any (fun n => n.isRebalancing) then s
  else
    let results := s.nodes.map (tickNode bs s)
    let nodeUpdates := results.map (fun r => r.1)
    let processedTick := results.foldl (fun acc r => acc + r.2.2) 0
    let pendingLogs := results.foldr
      (fun r acc => match r.2.1 with | some kv => kv :: acc | none => acc) []
    let topics := nodeUpdates.filter (fun n => n.type == NodeType.TOPIC && !n.isOffline)
    let avgLag := if 0 < topics.length then
        (topics.foldl (fun sum t => sum + jsQ t.currentLag) 0) / (topics.length : Rat)
      else 0
    let status := if 100 ≤ avgLag then GameStatus.GAME_OVER else s.gameStatus
    let s1 := { s with
      nodes := nodeUpdates
      globalLag := avgLag
      totalMessagesProcessed := s.totalMessagesProcessed + processedTick
      gameStatus := status
      isRunning := status == GameStatus.PLAYING }
    pendingLogs.foldl
      (fun acc kv => appendMetadataRecord ts MetadataRecordType.PARTITION_CHANGE kv.1 kv.2 acc) s1

/-! ### Controller election (`App.tsx` controller-election effect) -/

/-- One evaluation of the controller-election effect.  In ZOOKEEPER mode with
ZooKeeper offline the controller session expires; otherwise, if the current
controller is not alive, the first (lowest-id) live broker of `BROKERS` is
elected, a metadata entry is logged, and with no live broker the controller
becomes null. -/
def electionStep (bs : Nat → Bool) (eid : String) (ts : Nat) (s : GameState) : GameState :=
  if s.clusterMode == ClusterMode.ZOOKEEPER && s.isZookeeperOffline then
    { s with activeControllerId := none }
  else
    let currentController := s.activeControllerId
    if jsLeaderAlive bs currentController then s
    else
      match BROKERS.filter bs with
      | newController :: _ =>
          if currentController == some newController then s
          else
            let s1 := { s with activeControllerId := some newController }
            match s.clusterMode with
            | ClusterMode.ZOOKEEPER =>
                addZkLog eid ts ZkAction.ELECT "/controller"
                  (some ("broker_" ++ toString newController)) s1
            | ClusterMode.KRAFT =>
                appendMetadataRecord ts MetadataRecordType.BROKER_CHANGE "Leader"
                  ("New Controller " ++ toString newController) s1
      | [] => { s with activeControllerId := none }

/-! ### User actions (`App.tsx` `--- Actions ---`) -/

/-- The metadata-health check of `addNode`:
`clusterMode === 'ZOOKEEPER' ? isZookeeperOffline : activeControllerId === null`. -/
def metadataDown (s : GameState) : Bool :=
  match s.clusterMode with
  | ClusterMode.ZOOKEEPER => s.isZookeeperOffline
  | ClusterMode.KRAFT => s.activeControllerId == none

/-- The display name used in `addNode`'s template string. -/
def nodeTypeName (ty : NodeType) : String :=
  match ty with
  | NodeType.TOPIC => "Topic"
  | NodeType.CONSUMER => "Consumer"
  | NodeType.PRODUCER => "Producer"

/-- The `newNode` literal of `addNode` (position fields omitted). -/
def mkNewNode (ty : NodeType) (nid : String) (count : Nat) (randomBrokerId : Nat) :
    NodeEntity :=
  { id := nid, type := ty,
    name := nodeTypeName ty ++ " " ++ toString (count + 1),
    productionRate := some (if ty == NodeType.PRODUCER then 8 else 0),
    processingRate := some (if ty == NodeType.CONSUMER then 5 else 0),
    currentLag := some 0,
    partitions := if ty == NodeType.TOPIC then some 1 else none,
    replicationFactor := if ty == NodeType.TOPIC then some 1 else none,
    brokerId := if ty == NodeType.TOPIC then some randomBrokerId else none,
    activeLeaderId := if ty == NodeType.TOPIC then some randomBrokerId else none,
    replicas := if ty == NodeType.TOPIC then some [randomBrokerId] else none,
    assignedPartitions := some [],
    isRebalancing := false,
    isIdle := ty == NodeType.CONSUMER,
    isOffline := false,
    groupId := if ty == NodeType.CONSUMER then some "CG-1" else none }

/-- `App.tsx` `addNode`.  The fresh ids, the randomly drawn broker and the
timestamp are explicit parameters; the topic-registration log call queued from
inside the updater lands after the main state update. -/
def addNode (ty : NodeType) (nid connId : String) (randomBrokerId : Nat)
    (eid : String) (ts : Nat) (s : GameState) : GameState :=
  if ty == NodeType.TOPIC && metadataDown s then s
  else
    let newNode := mkNewNode ty nid s.nodes.length randomBrokerId
    let nextNodesRaw := s.nodes ++ [newNode]
    let nextConnections :=
      match ty with
      | NodeType.TOPIC =>
          let freeProducers := s.nodes.filter (fun n => n.type == NodeType.PRODUCER &&
            !(s.connections.any (fun c => c.sourceId == n.id)))
          match freeProducers with
          | p :: _ => s.connections ++ [{ id := connId, sourceId := p.id, targetId := newNode.id }]
          | [] => s.connections
      | NodeType.CONSUMER =>
          let availableTopics := s.nodes.filter (fun n => n.type == NodeType.TOPIC)
          match availableTopics.getLast? with
          | some t => s.connections ++ [{ id := connId, sourceId := t.id, targetId := newNode.id }]
          | none => s.connections
      | NodeType.PRODUCER =>
          let availableTopics := s.nodes.filter (fun n => n.type == NodeType.TOPIC)
          match availableTopics with
          | t :: _ => s.connections ++ [{ id := connId, sourceId := newNode.id, targetId := t.id }]
          | [] => s.connections
    let rebalancedNodes := triggerRebalance nextNodesRaw nextConnections
    let sMain := { s with nodes := rebalancedNodes, connections := nextConnections }
    if ty == NodeType.TOPIC then
      match s.clusterMode with
      | ClusterMode.ZOOKEEPER =>
          addZkLog eid ts ZkAction.REGISTER ("/config/topics/" ++ newNode.name) none sMain
      | ClusterMode.KRAFT =>
          appendMetadataRecord ts MetadataRecordType.TOPIC_CONFIG newNode.name
            "Created with RF: 1, P: 1" sMain
    else sMain

/-- `App.tsx` `deleteNode`: cascade-remove the node's connections, rebalance,
and log the deletion when the node was a topic. -/
def deleteNode (nid : String) (eid : String) (ts : Nat) (s : GameState) : GameState :=
  let nodeToDelete := s.nodes.find? (fun n => n.id == nid)
  let remainingNodes := s.nodes.filter (fun n => !(n.id == nid))
  let remainingConnections := s.connections.filter
    (fun c => !(c.sourceId == nid) && !(c.targetId == nid))
  let rebalancedNodes := triggerRebalance remainingNodes remainingConnections
  let sMain := { s with nodes := rebalancedNodes, connections := remainingConnections }
  match nodeToDelete with
  | some nd =>
      if nd.type == NodeType.TOPIC then
        match s.clusterMode with
        | ClusterMode.ZOOKEEPER =>
            addZkLog eid ts ZkAction.DELETE ("/config/topics/" ++ nd.name) none sMain
        | ClusterMode.KRAFT =>
            appendMetadataRecord ts MetadataRecordType.TOPIC_CONFIG nd.name "Deleted" sMain
      else sMain
  | none => sMain

/-- The partial-update payloads that `NodeComponent` sends to `updateNode`
(`Partial<NodeEntity>` restricted to the fields the UI mutates). -/
structure UpdatePayload where
  partitions : Option Nat
  productionRate : Option Rat
  processingRate : Option Rat
  replicationFactor : Option Nat
deriving DecidableEq, Repr

/-- JS spread `{ ...n, ...updates }` for an `UpdatePayload`. -/
def applyPayload (n : NodeEntity) (u : UpdatePayload) : NodeEntity :=
  { n with
    partitions := match u.partitions with | some v => some v | none => n.partitions,
    productionRate := match u.productionRate with | some v => some v | none => n.productionRate,
    processingRate := match u.processingRate with | some v => some v | none => n.processingRate,
    replicationFactor := match u.replicationFactor with
                         | some v => some v | none => n.replicationFactor }

/-- JS `!prev.activeControllerId` (`null` and the falsy `0` both count as "no
controller"). -/
def jsFalsyCtrl (o : Option Nat) : Bool :=
  match o with
  | none => true
  | some v => v == 0

/-- The body of `updateNode`'s `prev.nodes.map(...)`: returns the updated node
together with the KRaft records queued for it (in call order). -/
def updateNodeEntry (s : GameState) (nid : String) (u : UpdatePayload)
    (shuffled : List Nat) (n : NodeEntity) :
    NodeEntity × List (MetadataRecordType × String × String) :=
  if !(n.id == nid) then (n, [])
  else
    let updatedNode := applyPayload n u
    let partitionsLogs : List (MetadataRecordType × String × String) :=
      match u.partitions with
      | some pv =>
          if s.clusterMode == ClusterMode.KRAFT && n.type == NodeType.TOPIC then
            [(MetadataRecordType.TOPIC_CONFIG, n.name, "Updated Partitions to " ++ toString pv)]
          else []
      | none => []
    match u.replicationFactor with
    | some newRF =>
        if n.type == NodeType.TOPIC then
          if s.clusterMode == ClusterMode.ZOOKEEPER && s.isZookeeperOffline then (n, [])
          else if s.clusterMode == ClusterMode.KRAFT && jsFalsyCtrl s.activeControllerId then (n, [])
          else
            let currentLeader := match n.activeLeaderId with
                                 | some l => if l = 0 then 101 else l
                                 | none => 101
            let node1 := { updatedNode with
              replicas := some (pickBrokers newRF (some currentLeader) shuffled) }
            let rfLogs : List (MetadataRecordType × String × String) :=
              if s.clusterMode == ClusterMode.KRAFT then
                [(MetadataRecordType.TOPIC_CONFIG, n.name, "Updated RF to " ++ toString newRF)]
              else []
            (node1, rfLogs ++ partitionsLogs)
        else (updatedNode, partitionsLogs)
    | none => (updatedNode, partitionsLogs)

/-- `App.tsx` `updateNode`: map the entry update over the nodes, rebalance when
the partition count changed, then apply the queued KRaft records.  `shuffled`
stands for the random shuffle consumed by `pickBrokers`. -/
def updateNode (nid : String) (u : UpdatePayload) (shuffled : List Nat) (ts : Nat)
    (s : GameState) : GameState :=
  let entries := s.nodes.map (updateNodeEntry s nid u shuffled)
  let newNodes0 := entries.map (fun e => e.1)
  let pendingLogs := (entries.map (fun e => e.2)).flatten
  let newNodes := if u.partitions.isSome then triggerRebalance newNodes0 s.connections
                  else newNodes0
  let sMain := { s with nodes := newNodes }
  pendingLogs.foldl (fun acc kv => appendMetadataRecord ts kv.1 kv.2.1 kv.2.2 acc) sMain

/-- The initial `useState` value of `gameState`. -/
def initialGameState : GameState :=
  { nodes := [], connections := [], totalMessagesProcessed := 0, globalLag := 0,
    isRunning := false, gameStatus := GameStatus.IDLE, level := 1, score := 0,
    clusterMode := ClusterMode.ZOOKEEPER, isZookeeperOffline := false,
    activeControllerId := none, zkLogs := [], raftLogs := [] }

/-- `App.tsx` `handleReset` (the broker-liveness record is reset separately). -/
def handleReset (s : GameState) : GameState :=
  { initialGameState with clusterMode := s.clusterMode }

/-- `App.tsx` `handleRetry`: keep the topology, zero lag/counters/flags. -/
def handleRetry (s : GameState) : GameState :=
  { s with globalLag := 0, totalMessagesProcessed := 0,
           gameStatus := GameStatus.IDLE, isRunning := false,
           isZookeeperOffline := false, zkLogs := [],
           nodes := s.nodes.map (fun n =>
             { n with currentLag := some 0, isOffline := false, isRebalancing := false }) }

/-- `App.tsx` `togglePause`: rejected while GAME_OVER. -/
def togglePause (s : GameState) : GameState :=
  if s.gameStatus == GameStatus.GAME_OVER then s
  else { s with isRunning := !s.isRunning,
                gameStatus := if !s.isRunning then GameStatus.PLAYING else GameStatus.IDLE }

/-- `App.tsx` `toggleClusterMode`. -/
def toggleClusterMode (s : GameState) : GameState :=
  { s with clusterMode := if s.clusterMode == ClusterMode.ZOOKEEPER then ClusterMode.KRAFT
                          else ClusterMode.ZOOKEEPER,
           isZookeeperOffline := false, zkLogs := [], raftLogs := [],
           activeControllerId := none }

/-- `App.tsx` `toggleBroker`'s effect on the game state (the liveness record
itself lives outside `gameState`); `wasLive` is the liveness read before the
flip. -/
def toggleBroker (bid : Nat) (wasLive : Bool) (eid : String) (ts : Nat)
    (s : GameState) : GameState :=
  match s.clusterMode with
  | ClusterMode.ZOOKEEPER =>
      if wasLive then addZkLog eid ts ZkAction.DELETE ("/brokers/ids/" ++ toString bid) none s
      else addZkLog eid ts ZkAction.REGISTER ("/brokers/ids/" ++ toString bid)
        (some ("\x7b\"host\":\"broker-" ++ toString bid ++ "\"\x7d")) s
  | ClusterMode.KRAFT =>
      if wasLive then
        appendMetadataRecord ts MetadataRecordType.BROKER_CHANGE
          ("Broker " ++ toString bid) "Missed Heartbeat (Offline)" s
      else
        appendMetadataRecord ts MetadataRecordType.BROKER_CHANGE
          ("Broker " ++ toString bid) "Rejoined Quorum" s

/-- `App.tsx` `toggleZookeeper`: a no-op in KRAFT mode. -/
def toggleZookeeper (s : GameState) : GameState :=
  if s.clusterMode == ClusterMode.KRAFT then s
  else { s with isZookeeperOffline := !s.isZookeeperOffline }

/-- The rebalance-settle timer: clear every `isRebalancing` flag. -/
def clearRebalancingFlags (s : GameState) : GameState :=
  { s with nodes := s.nodes.map (fun n => { n with isRebalancing := false }) }

/-! ### The transition system

One step of `Step s s'` is one serialized mutation of the game state: a user
action, a tick, an election-effect evaluation, or the settle-timer callback.
Broker liveness, random draws and timestamps are universally quantified
parameters; the side conditions record what the source guarantees about the
random draws (brokers are drawn from `BROKERS`, shuffles of broker pools only
contain brokers). -/
inductive Step : GameState → GameState → Prop where
  | addNodeStep (ty : NodeType) (nid connId eid : String) (b ts : Nat) (s : GameState)
      (hb : b ∈ BROKERS) : Step s (addNode ty nid connId b eid ts s)
  | deleteNodeStep (nid eid : String) (ts : Nat) (s : GameState) :
      Step s (deleteNode nid eid ts s)
  | updateNodeStep (nid : String) (u : UpdatePayload) (shuffled : List Nat) (ts : Nat)
      (s : GameState) (hs : ∀ x ∈ shuffled, x ∈ BROKERS) :
      Step s (updateNode nid u shuffled ts s)
  | tickStepStep (bs : Nat → Bool) (ts : Nat) (s : GameState) : Step s (tickStep bs ts s)
  | electionStepStep (bs : Nat → Bool) (eid : String) (ts : Nat) (s : GameState) :
      Step s (electionStep bs eid ts s)
  | resetStep (s : GameState) : Step s (handleReset s)
  | retryStep (s : GameState) : Step s (handleRetry s)
  | pauseStep (s : GameState) : Step s (togglePause s)
  | modeStep (s : GameState) : Step s (toggleClusterMode s)
  | brokerStep (bid : Nat) (wasLive : Bool) (eid : String) (ts : Nat) (s : GameState) :
      Step s (toggleBroker bid wasLive eid ts s)
  | zkStep (s : GameState) : Step s (toggleZookeeper s)
  | clearRebStep (s : GameState) : Step s (clearRebalancingFlags s)

/-- The states reachable from the initial state by serialized mutations. -/
inductive Reachable : GameState → Prop where
  | init : Reachable initialGameState
  | step {s s' : GameState} : Reachable s → Step s s' → Reachable s'

/-- Is `n` a consumer connected to at least one topic node of `nodes`? -/
def connectedToSomeTopic (nodes : List NodeEntity) (conns : List Connection)
    (n : NodeEntity) : Bool :=
  n.type == NodeType.CONSUMER &&
    nodes.any (fun t => t.type == NodeType.TOPIC &&
      conns.any (fun c => c.sourceId == t.id && c.targetId == n.id))

/-- One topic's assignment-only pass of the claimed (global-reset) rebalance:
round-robin the topic's partitions over its connected consumers, appending to
whatever assignment sets they already hold. -/
def claimPass (conns : List Connection) (acc : List NodeEntity)
    (topic : NodeEntity) : List NodeEntity :=
  let indices := consumerIdx acc conns topic.id
  let partitionCount := jsNat1 topic.partitions
  if 0 < indices.length then assignAll indices partitionCount acc else acc

/-- The up-front reset of the claimed behavior: clear a consumer exactly when
it is connected to some topic. -/
def condClear (nodes : List NodeEntity) (conns : List Connection)
    (n : NodeEntity) : NodeEntity :=
  if connectedToSomeTopic nodes conns n then clearConsumer n else n

/-- Modelled from the claim/spec wording of the rebalancer (the behavior of the
global-reset variant): FIRST clear the assignment set of every consumer that is
connected to any topic, THEN run the per-topic round-robin passes, appending to
the cleared sets.  Used only to compare the source `triggerRebalance` against
the claimed behavior. -/
def triggerRebalanceClaim (nodes : List NodeEntity) (conns : List Connection) :
    List NodeEntity :=
  let cleared := nodes.map (condClear nodes conns)
  (nodes.filter (fun n => n.type == NodeType.TOPIC)).foldl (claimPass conns) cleared

/-- The partition indices that the round-robin loop hands to the consumer at
position `j` among `c` consumers: the `i < p` with `i % c = j`, in order. -/
def bucket (c p j : Nat) : List Nat :=
  (List.range p).filter (fun i => i % c == j)

/-! ### Concrete fixtures used by witnesses and counterexamples -/

/-- A topic node with three replicas led by broker 101 and lag 7. -/
def exampleTopicC1 : NodeEntity :=
  { id := "t1", type := NodeType.TOPIC, name := "Topic 1",
    productionRate := some 0, processingRate := some 0, currentLag := some 7,
    partitions := some 1, brokerId := some 101, replicationFactor := some 3,
    replicas := some [101, 102, 103], activeLeaderId := some 101,
    assignedPartitions := some [], isRebalancing := false, isIdle := false,
    isOffline := false, groupId := none }

/-- A topic node fixture with the given id, partition count, lag and single
replica 101. -/
def mkTopicFixture (i nm : String) (parts : Nat) (lag : Rat) : NodeEntity :=
  { id := i, type := NodeType.TOPIC, name := nm,
    productionRate := some 0, processingRate := some 0, currentLag := some lag,
    partitions := some parts, brokerId := some 101, replicationFactor := some 1,
    replicas := some [101], activeLeaderId := some 101,
    assignedPartitions := some [], isRebalancing := false, isIdle := false,
    isOffline := false, groupId := none }

/-- A consumer node fixture. -/
def mkConsumerFixture (i nm : String) (rate : Rat) (assigned : List Nat) : NodeEntity :=
  { id := i, type := NodeType.CONSUMER, name := nm,
    productionRate := some 0, processingRate := some rate, currentLag := some 0,
    partitions := none, brokerId := none, replicationFactor := none,
    replicas := none, activeLeaderId := none, assignedPartitions := some assigned,
    isRebalancing := false, isIdle := false, isOffline := false,
    groupId := some "CG-1" }

/-- A producer node fixture. -/
def mkProducerFixture (i nm : String) (rate : Rat) : NodeEntity :=
  { id := i, type := NodeType.PRODUCER, name := nm,
    productionRate := some rate, processingRate := some 0, currentLag := some 0,
    partitions := none, brokerId := none, replicationFactor := none,
    replicas := none, activeLeaderId := none, assignedPartitions := some [],
    isRebalancing := false, isIdle := false, isOffline := false, groupId := none }

/-- The single-pipeline scenario: Producer (rate 8) → Topic (1 partition,
lag 0) → Consumer (rate 5, assigned [0]). -/
def pipelineState : GameState :=
  { initialGameState with
    nodes := [mkProducerFixture "p1" "Producer 1" 8,
              mkTopicFixture "t1" "Topic 2" 1 0,
              mkConsumerFixture "c1" "Consumer 3" 5 [0]],
    connections := [{ id := "k1", sourceId := "p1", targetId := "t1" },
                    { id := "k2", sourceId := "t1", targetId := "c1" }] }

/-- The single-topic state whose lag sits exactly at the ceiling. -/
def ceilingState : GameState :=
  { initialGameState with
    nodes := [mkTopicFixture "t1" "Topic 1" 1 100],
    isRunning := true, gameStatus := GameStatus.PLAYING }

/-- A KRAFT-mode state with no elected controller (metadata layer down)
holding one topic. -/
def kraftDownState : GameState :=
  { initialGameState with
    clusterMode := ClusterMode.KRAFT, activeControllerId := none,
    nodes := [mkTopicFixture "t1" "Topic 1" 1 0] }

/-! ### Claim C7: operation gating while terminated -/

/-- A terminated session still holding one producer node. -/
def terminatedState : GameState :=
  { initialGameState with
    nodes := [mkProducerFixture "p1" "Producer 1" 8],
    gameStatus := GameStatus.GAME_OVER }

/-! ### Claim C9: leader ∈ replicas in every reachable state

The rebalancer rewrites only `assignedPartitions`, `isRebalancing` and
`isIdle`; `coreEq` records that the identity, type, leader and replica set of
a node survive it untouched. -/

def coreEq (a b : NodeEntity) : Prop :=
  a.id = b.id ∧ a.type = b.type ∧ a.activeLeaderId = b.activeLeaderId
    ∧ a.replicas = b.replicas

/-- The per-node invariant of C9: a topic's leader (when set) is one of its
replicas, and leader and replicas reference the fixed broker pool. -/
def invElem (n : NodeEntity) : Prop :=
  n.type = NodeType.TOPIC →
    (∀ l, n.activeLeaderId = some l → l ∈ jsList n.replicas ∧ l ∈ BROKERS)
    ∧ ∀ r ∈ jsList n.replicas, r ∈ BROKERS

/-- The reachable state obtained by switching to KRAFT mode and toggling a
broker eleven times: each toggle appends one metadata record. -/
def raftGrowthState : GameState :=
  (toggleBroker 101 true "e" 0)^[11] (toggleClusterMode initialGameState)

/-- The net effect of one topic's (source) rebalance pass on a connected
consumer at position `j`: assignments replaced by that topic's round-robin
bucket, the rebalancing flag raised, the idle flag recomputed. -/
def fullTransform (c p j : Nat) (n : NodeEntity) : NodeEntity :=
  { n with
    assignedPartitions := some (bucket c p j),
    isRebalancing := true,
    isIdle := if bucket c p j = [] then true else false }

def c2cxTopic1 : NodeEntity := mkTopicFixture "t1" "orders" 1 0

def c2cxTopic2 : NodeEntity := mkTopicFixture "t2" "payments" 1 0

def c2cxConsumer : NodeEntity := mkConsumerFixture "c1" "worker" 5 [7]

def c2cxNodes : List NodeEntity := [c2cxTopic1, c2cxTopic2, c2cxConsumer]

def c2cxConns : List Connection :=
  [{ id := "e1", sourceId := "t1", targetId := "c1" },
   { id := "e2", sourceId := "t2", targetId := "c1" }]

def c2wTopic : NodeEntity := mkTopicFixture "t1" "orders" 3 0

def c2wConsumerA : NodeEntity := mkConsumerFixture "c1" "worker-a" 5 [9]

def c2wConsumerB : NodeEntity := mkConsumerFixture "c2" "worker-b" 5 []

def c2wNodes : List NodeEntity := [c2wTopic, c2wConsumerA, c2wConsumerB]

def c2wConns : List Connection :=
  [{ id := "e1", sourceId := "t1", targetId := "c1" },
   { id := "e2", sourceId := "t1", targetId := "c2" }]

def c3cxTopic1 : NodeEntity := mkTopicFixture "t1" "orders" 2 0

def c3cxTopic2 : NodeEntity := mkTopicFixture "t2" "payments" 1 0

def c3cxConsumer1 : NodeEntity := mkConsumerFixture "c1" "worker-a" 5 []

def c3cxConsumer2 : NodeEntity := mkConsumerFixture "c2" "worker-b" 5 []

def c3cxNodes : List NodeEntity :=
  [c3cxTopic1, c3cxTopic2, c3cxConsumer1, c3cxConsumer2]

def c3cxConns : List Connection :=
  [{ id := "e1", sourceId := "t1", targetId := "c1" },
   { id := "e2", sourceId := "t1", targetId := "c2" },
   { id := "e3", sourceId := "t2", targetId := "c2" }]

def c3wTopic : NodeEntity := mkTopicFixture "t1" "orders" 1 0

def c3wConsumerA : NodeEntity := mkConsumerFixture "c1" "worker-a" 5 []

def c3wConsumerB : NodeEntity := mkConsumerFixture "c2" "worker-b" 5 [4]

def c3wNodes : List NodeEntity := [c3wTopic, c3wConsumerA, c3wConsumerB]

def c3wConns : List Connection :=
  [{ id := "e1", sourceId := "t1", targetId := "c1" },
   { id := "e2", sourceId := "t1", targetId := "c2" }]

/-! ### Small helper lemmas -/

theorem activeControllerId_addZkLog (eid : String) (ts : Nat) (a : ZkAction)
    (pth : String) (d : Option String) (s : GameState) :
    (addZkLog eid ts a pth d s).activeControllerId = s.activeControllerId := rfl

theorem activeControllerId_appendMetadataRecord (ts : Nat) (ty : MetadataRecordType)
    (k v : String) (s : GameState) :
    (appendMetadataRecord ts ty k v s).activeControllerId = s.activeControllerId := rfl

/-- `find?` returns the first element satisfying the predicate: if everything
before `b` fails and `b` succeeds, the scan stops at `b`. -/
theorem find?_of_prefix_false {α : Type} {p : α → Bool} (pre : List α) (b : α)
    (post : List α) (hpre : ∀ x ∈ pre, p x = false) (hb : p b = true) :
    (pre ++ b :: post).find? p = some b := by
  induction pre with
  | nil => simp [List.find?_cons_of_pos, hb]
  | cons x xs ih =>
      have hx : p x = false := hpre x (by simp)
      simpa [List.find?_cons_of_neg, hx] using ih (fun y hy => hpre y (by simp [hy]))

/-! ### Claim C1: per-tick replication & failover resolution -/

/-- C1: For every tick and every Topic whose current leader broker is not
live: with no elected controller the topic is marked offline with leader and
lag untouched; with a controller, the first live broker in the stored replica
order becomes the new leader and the topic is online; with no live replica the
topic is marked offline. -/
theorem c1_failover_resolution (bs : Nat → Bool) (s : GameState) (node : NodeEntity)
    (hT : node.type = NodeType.TOPIC)
    (hdead : jsLeaderAlive bs node.activeLeaderId = false) :
    (s.activeControllerId = none →
        (tickNode bs s node).1.isOffline = true
      ∧ (tickNode bs s node).1.activeLeaderId = node.activeLeaderId
      ∧ (tickNode bs s node).1.currentLag = node.currentLag)
  ∧ (s.activeControllerId ≠ none →
        (∀ pre b post, jsList node.replicas = pre ++ b :: post →
            (∀ x ∈ pre, bs x = false) → bs b = true →
            (tickNode bs s node).1.activeLeaderId = some b
          ∧ (tickNode bs s node).1.isOffline = false)
      ∧ ((∀ b ∈ jsList node.replicas, bs b = false) →
            (tickNode bs s node).1.isOffline = true)) := by
  constructor
  · intro hctrl
    simp [tickNode, hT, hdead, hctrl]
  · intro hctrl
    constructor
    · intro pre b post hrep hpre hb
      have hfind : (jsList node.replicas).find? bs = some b := by
        rw [hrep]; exact find?_of_prefix_false pre b post hpre hb
      simp [tickNode, hT, hdead, hctrl, hfind]
    · intro hall
      have hfind : (jsList node.replicas).find? bs = none :=
        List.find?_eq_none.mpr (fun x hx => by simp [hall x hx])
      simp [tickNode, hT, hdead, hctrl, hfind]

/-- C1 witness: replicas `[101,102,103]`, leader `101`, brokers
`{101: dead, 102: dead, 103: live}`, a live controller: one tick elects `103`
and the topic is online; with controller `null` it goes offline with leader
and lag untouched. -/
theorem c1_failover_resolution_witness :
    ((tickNode (fun b => b == 103)
        { initialGameState with activeControllerId := some 103 } exampleTopicC1).1.activeLeaderId
      = some 103
    ∧ (tickNode (fun b => b == 103)
        { initialGameState with activeControllerId := some 103 } exampleTopicC1).1.isOffline
      = false)
  ∧ ((tickNode (fun b => b == 103) initialGameState exampleTopicC1).1.isOffline = true
    ∧ (tickNode (fun b => b == 103) initialGameState exampleTopicC1).1.activeLeaderId = some 101
    ∧ (tickNode (fun b => b == 103) initialGameState exampleTopicC1).1.currentLag = some 7) := by
  constructor
  · exact (c1_failover_resolution (fun b => b == 103)
      { initialGameState with activeControllerId := some 103 } exampleTopicC1
      (by decide) (by decide)).2 (by decide) |>.1 [101, 102] 103 []
      (by decide) (by decide) (by decide)
  · exact (c1_failover_resolution (fun b => b == 103) initialGameState exampleTopicC1
      (by decide) (by decide)).1 (by decide)

/-! ### Claim C4: controller election -/

/-- `electionStep` elects `b` whenever the dead-controller guard passes and
`b` heads the filtered live-broker pool. -/
theorem electionStep_elects (bs : Nat → Bool) (eid : String) (ts : Nat) (s : GameState)
    (hguard : (s.clusterMode == ClusterMode.ZOOKEEPER && s.isZookeeperOffline) = false)
    (halive : jsLeaderAlive bs s.activeControllerId = false)
    (b : Nat) (rest : List Nat) (hfil : BROKERS.filter bs = b :: rest)
    (hne : s.activeControllerId ≠ some b) :
    (electionStep bs eid ts s).activeControllerId = some b := by
  have hbeq : (s.activeControllerId == some b) = false := by
    simpa using hne
  cases hmode : s.clusterMode with
  | ZOOKEEPER =>
      have hzk : s.isZookeeperOffline = false := by
        have h := hguard
        rw [hmode] at h
        simpa using h
      simp [electionStep, hmode, hzk, halive, hfil, hbeq, addZkLog]
  | KRAFT =>
      simp [electionStep, hmode, halive, hfil, hbeq, appendMetadataRecord]

/-- C4: In PRIMARY (ZooKeeper) mode with the metadata service unavailable the
controller is forced to null; otherwise, when the current controller is null
or dead, the live broker with the lowest id in the pool `{101,102,103}` is
elected, and with no live broker the controller becomes null. -/
theorem c4_controller_election (bs : Nat → Bool) (eid : String) (ts : Nat)
    (s : GameState) :
    ((s.clusterMode = ClusterMode.ZOOKEEPER ∧ s.isZookeeperOffline = true) →
        (electionStep bs eid ts s).activeControllerId = none)
  ∧ (¬(s.clusterMode = ClusterMode.ZOOKEEPER ∧ s.isZookeeperOffline = true) →
      (s.activeControllerId = none ∨
        (∃ c, s.activeControllerId = some c ∧ bs c = false)) →
        (∀ b, b ∈ BROKERS → bs b = true →
            (∀ b2, b2 ∈ BROKERS → bs b2 = true → b ≤ b2) →
            (electionStep bs eid ts s).activeControllerId = some b)
      ∧ ((∀ b ∈ BROKERS, bs b = false) →
            (electionStep bs eid ts s).activeControllerId = none)) := by
  constructor
  · rintro ⟨h1, h2⟩
    simp [electionStep, h1, h2]
  · intro hno hdead
    have hguard : (s.clusterMode == ClusterMode.ZOOKEEPER && s.isZookeeperOffline) = false := by
      cases hmode : s.clusterMode <;> cases hzk : s.isZookeeperOffline <;> simp_all
    have halive : jsLeaderAlive bs s.activeControllerId = false := by
      rcases hdead with h | ⟨c, hc, hcf⟩
      · simp [jsLeaderAlive, h]
      · simp [jsLeaderAlive, hc, hcf]
    constructor
    · intro b hb hlive hmin
      have hne : s.activeControllerId ≠ some b := by
        rcases hdead with h | ⟨c, hc, hcf⟩
        · simp [h]
        · rw [hc]
          intro heq
          rw [Option.some_inj] at heq
          rw [heq] at hcf
          rw [hcf] at hlive
          exact absurd hlive (by simp)
      have hbroke : b = 101 ∨ b = 102 ∨ b = 103 := by simpa [BROKERS] using hb
      rcases hbroke with rfl | rfl | rfl
      · have hfil : BROKERS.filter bs = 101 :: List.filter bs [102, 103] := by
          simp [BROKERS, hlive]
        exact electionStep_elects bs eid ts s hguard halive 101 _ hfil hne
      · have h101 : bs 101 = false := by
          cases h : bs 101 with
          | true => exact absurd (hmin 101 (by simp [BROKERS]) h) (by decide)
          | false => rfl
        have hfil : BROKERS.filter bs = 102 :: List.filter bs [103] := by
          simp [BROKERS, h101, hlive]
        exact electionStep_elects bs eid ts s hguard halive 102 _ hfil hne
      · have h101 : bs 101 = false := by
          cases h : bs 101 with
          | true => exact absurd (hmin 101 (by simp [BROKERS]) h) (by decide)
          | false => rfl
        have h102 : bs 102 = false := by
          cases h : bs 102 with
          | true => exact absurd (hmin 102 (by simp [BROKERS]) h) (by decide)
          | false => rfl
        have hfil : BROKERS.filter bs = [103] := by
          simp [BROKERS, h101, h102, hlive]
        exact electionStep_elects bs eid ts s hguard halive 103 _ hfil hne
    · intro hall
      have h101 : bs 101 = false := hall 101 (by simp [BROKERS])
      have h102 : bs 102 = false := hall 102 (by simp [BROKERS])
      have h103 : bs 103 = false := hall 103 (by simp [BROKERS])
      have hfil : BROKERS.filter bs = [] := by simp [BROKERS, h101, h102, h103]
      cases hmode : s.clusterMode <;>
        simp [electionStep, hmode, halive, hfil, hmode ▸ hguard]

/-- C4 witness: with only broker 103 live and no current controller in
ZOOKEEPER mode with the service available, broker 103 (the lowest live id)
is elected. -/
theorem c4_controller_election_witness :
    (electionStep (fun n => n == 103) "e1" 5 initialGameState).activeControllerId
      = some 103 := by
  exact ((c4_controller_election (fun n => n == 103) "e1" 5 initialGameState).2
    (by decide) (Or.inl (by decide))).1 103 (by decide) (by decide)
    (by decide)

/-! ### Claim C5: per-tick backlog update for online topics -/

/-- C5: For every topic left online by the tick, the new backlog is
`max(0, lag + inflow*0.5 - min(lag + inflow*0.5, capacity*0.5))`, with inflow
the summed production rates of connected producers and capacity the summed
processing rates of connected consumers holding at least one partition. -/
theorem c5_lag_update (bs : Nat → Bool) (s : GameState) (node : NodeEntity)
    (hT : node.type = NodeType.TOPIC)
    (hon : (tickNode bs s node).1.isOffline = false) :
    (tickNode bs s node).1.currentLag =
      some (max 0 (jsQ node.currentLag + inflowOf s node * (1 / 2)
        - min (jsQ node.currentLag + inflowOf s node * (1 / 2))
            (capacityOf s node * (1 / 2)))) := by
  by_cases halive : jsLeaderAlive bs node.activeLeaderId = true
  · simp [tickNode, hT, halive]
  · have hdead : jsLeaderAlive bs node.activeLeaderId = false := by
      simpa using halive
    by_cases hctrl : s.activeControllerId = none
    · exfalso
      simp [tickNode, hT, hdead, hctrl] at hon
    · cases hfind : (jsList node.replicas).find? bs with
      | none =>
          exfalso
          simp [tickNode, hT, hdead, hctrl, hfind] at hon
      | some cand =>
          simp [tickNode, hT, hdead, hctrl, hfind]

/-- C5 witness: in the single-pipeline scenario one tick leaves the topic with
lag `1.5`. -/
theorem c5_lag_update_witness :
    (tickNode (fun b => b == 101) pipelineState (mkTopicFixture "t1" "Topic 2" 1 0)).1.currentLag
      = some (3 / 2) := by
  have h := c5_lag_update (fun b => b == 101) pipelineState
    (mkTopicFixture "t1" "Topic 2" 1 0) (by decide) (by decide)
  rw [h]
  simp only [jsQ, jsList, inflowOf, capacityOf, pipelineState, initialGameState,
    mkProducerFixture, mkTopicFixture, mkConsumerFixture, List.filter, List.any,
    List.foldl, Option.getD]
  norm_num [min_def, max_def]

/-! ### Claim C6: global-lag ceiling terminates the session -/

theorem globalLag_appendFold (logs : List (String × String)) (ts : Nat) (s : GameState) :
    (logs.foldl (fun acc kv =>
        appendMetadataRecord ts MetadataRecordType.PARTITION_CHANGE kv.1 kv.2 acc) s).globalLag
      = s.globalLag := by
  induction logs generalizing s with
  | nil => rfl
  | cons kv rest ih =>
      rw [List.foldl_cons, ih]
      rfl

theorem gameStatus_appendFold (logs : List (String × String)) (ts : Nat) (s : GameState) :
    (logs.foldl (fun acc kv =>
        appendMetadataRecord ts MetadataRecordType.PARTITION_CHANGE kv.1 kv.2 acc) s).gameStatus
      = s.gameStatus := by
  induction logs generalizing s with
  | nil => rfl
  | cons kv rest ih =>
      rw [List.foldl_cons, ih]
      rfl

theorem isRunning_appendFold (logs : List (String × String)) (ts : Nat) (s : GameState) :
    (logs.foldl (fun acc kv =>
        appendMetadataRecord ts MetadataRecordType.PARTITION_CHANGE kv.1 kv.2 acc) s).isRunning
      = s.isRunning := by
  induction logs generalizing s with
  | nil => rfl
  | cons kv rest ih =>
      rw [List.foldl_cons, ih]
      rfl

/-- C6: On any tick that recomputes the global lag (i.e. no node is
mid-rebalance) and finds it at or above 100, the session status becomes
GAME_OVER and the running flag becomes false on that same tick. -/
theorem c6_global_lag_ceiling (bs : Nat → Bool) (ts : Nat) (s : GameState)
    (hreb : s.nodes.any (fun n => n.isRebalancing) = false) :
    100 ≤ (tickStep bs ts s).globalLag →
      (tickStep bs ts s).gameStatus = GameStatus.GAME_OVER
    ∧ (tickStep bs ts s).isRunning = false := by
  intro h
  rw [tickStep, if_neg (by simp [hreb])] at h ⊢
  rw [globalLag_appendFold] at h
  rw [gameStatus_appendFold, isRunning_appendFold]
  simp only at h ⊢
  rw [if_pos h]
  exact ⟨rfl, rfl⟩

/-- C6 witness: a single topic whose lag is exactly 100 terminates the session
and stops the running flag on that tick. -/
theorem c6_global_lag_ceiling_witness :
    (tickStep (fun b => b == 101) 0 ceilingState).gameStatus = GameStatus.GAME_OVER
  ∧ (tickStep (fun b => b == 101) 0 ceilingState).isRunning = false := by
  have hlag : (tickStep (fun b => b == 101) 0 ceilingState).globalLag = 100 := by
    simp only [tickStep, tickNode, ceilingState, initialGameState, mkTopicFixture,
      jsLeaderAlive, jsQ, jsList, inflowOf, capacityOf, List.filter, List.any,
      List.foldl, List.map, List.foldr, Option.getD, List.any_cons, List.any_nil]
    norm_num [min_def, max_def]
  exact c6_global_lag_ceiling (fun b => b == 101) 0 ceilingState (by decide)
    (by rw [hlag])

/-! ### Claim C8: metadata unavailability rejects topic creation and RF change -/

/-- C8: When the active metadata layer is unavailable (ZooKeeper offline in
ZOOKEEPER mode, or no controller in KRAFT mode), adding a Topic leaves the
entire state unchanged, and an update changing a topic's replication factor
leaves the state (in particular that topic's node, replica set and replication
factor) unchanged. -/
theorem c8_metadata_unavailable (s : GameState) (hdown : metadataDown s = true) :
    (∀ nid connId b eid ts, addNode NodeType.TOPIC nid connId b eid ts s = s)
  ∧ (∀ nid r shuffled ts,
      (∀ n ∈ s.nodes, n.id = nid → n.type = NodeType.TOPIC) →
      updateNode nid ⟨none, none, none, some r⟩ shuffled ts s = s) := by
  constructor
  · intro nid connId b eid ts
    simp [addNode, hdown]
  · intro nid r shuffled ts hty
    have hentry : ∀ n ∈ s.nodes,
        updateNodeEntry s nid ⟨none, none, none, some r⟩ shuffled n = (n, []) := by
      intro n hn
      by_cases hid : n.id = nid
      · have htyn := hty n hn hid
        cases hmode : s.clusterMode with
        | ZOOKEEPER =>
            have hzk : s.isZookeeperOffline = true := by
              have h := hdown
              rw [metadataDown, hmode] at h
              exact h
            simp [updateNodeEntry, hid, htyn, hmode, hzk]
        | KRAFT =>
            have hnoc : s.activeControllerId = none := by
              have h := hdown
              rw [metadataDown, hmode] at h
              simpa using h
            simp [updateNodeEntry, hid, htyn, hmode, hnoc, jsFalsyCtrl]
      · simp [updateNodeEntry, hid]
    have hmap : s.nodes.map (updateNodeEntry s nid ⟨none, none, none, some r⟩ shuffled)
        = s.nodes.map (fun n => (n, [])) := List.map_congr_left hentry
    have hflat : ∀ (l : List NodeEntity),
        (List.map (fun (_ : NodeEntity) =>
          ([] : List (MetadataRecordType × String × String))) l).flatten = [] := by
      intro l
      induction l with
      | nil => rfl
      | cons a as ih => simp [ih]
    unfold updateNode
    rw [hmap]
    simp [List.map_map, Function.comp_def, hflat]

/-- C8 witness: in a KRAFT state without controller, creating a topic and
changing the existing topic's replication factor both leave the state
unchanged. -/
theorem c8_metadata_unavailable_witness :
    addNode NodeType.TOPIC "t2" "k9" 101 "e9" 9 kraftDownState = kraftDownState
  ∧ updateNode "t1" ⟨none, none, none, some 3⟩ [102, 103] 9 kraftDownState
      = kraftDownState := by
  constructor
  · exact (c8_metadata_unavailable kraftDownState (by decide)).1 "t2" "k9" 101 "e9" 9
  · exact (c8_metadata_unavailable kraftDownState (by decide)).2 "t1" 3 [102, 103] 9
      (by decide)

/-- C7 counterexample: in a terminated state, `deleteNode` is not rejected —
it removes the node and changes the state. -/
theorem c7_counterexample_delete_during_terminated :
    terminatedState.gameStatus = GameStatus.GAME_OVER
  ∧ deleteNode "p1" "e" 0 terminatedState ≠ terminatedState := by
  constructor
  · rfl
  · decide

theorem nodes_appendFold (logs : List (MetadataRecordType × String × String))
    (ts : Nat) (s : GameState) :
    (logs.foldl (fun acc kv => appendMetadataRecord ts kv.1 kv.2.1 kv.2.2 acc) s).nodes
      = s.nodes := by
  induction logs generalizing s with
  | nil => rfl
  | cons kv rest ih =>
      rw [List.foldl_cons, ih]
      rfl

/-- C7 (amended): while the session is terminated, the pause toggle is
rejected (state unchanged), but the engine's delete-node and update-node
operations perform no terminated-state check: deletion removes the node, its
connections and rebalances as normal, and a rate update is applied as
normal. -/
theorem c7_terminated_gating (s : GameState)
    (h : s.gameStatus = GameStatus.GAME_OVER) :
    togglePause s = s
  ∧ (∀ nid eid ts,
      (deleteNode nid eid ts s).nodes
        = triggerRebalance (s.nodes.filter (fun n => !(n.id == nid)))
            (s.connections.filter (fun c => !(c.sourceId == nid) && !(c.targetId == nid)))
      ∧ (deleteNode nid eid ts s).connections
        = s.connections.filter (fun c => !(c.sourceId == nid) && !(c.targetId == nid)))
  ∧ (∀ nid v shuffled ts,
      (updateNode nid ⟨none, some v, none, none⟩ shuffled ts s).nodes
        = s.nodes.map (fun n =>
            if n.id == nid then { n with productionRate := some v } else n)) := by
  refine ⟨?_, ?_, ?_⟩
  · simp [togglePause, h]
  · intro nid eid ts
    constructor
    · simp only [deleteNode]
      cases hfind : s.nodes.find? (fun n => n.id == nid) with
      | none => rfl
      | some nd =>
          cases hty : (nd.type == NodeType.TOPIC) <;>
            cases hmode : s.clusterMode <;>
              simp [hty, hmode, addZkLog, appendMetadataRecord]
    · simp only [deleteNode]
      cases hfind : s.nodes.find? (fun n => n.id == nid) with
      | none => rfl
      | some nd =>
          cases hty : (nd.type == NodeType.TOPIC) <;>
            cases hmode : s.clusterMode <;>
              simp [hty, hmode, addZkLog, appendMetadataRecord]
  · intro nid v shuffled ts
    simp only [updateNode, nodes_appendFold]
    simp only [Option.isSome_none, Bool.false_eq_true, if_false, List.map_map]
    refine List.map_congr_left ?_
    intro n _
    by_cases hid : (n.id == nid) = true
    · simp [updateNodeEntry, hid, applyPayload, Function.comp]
    · have hid' : (n.id == nid) = false := by
        cases hval : (n.id == nid)
        · rfl
        · exact absurd hval hid
      simp [updateNodeEntry, hid', Function.comp]

theorem coreEq_refl (a : NodeEntity) : coreEq a a := ⟨rfl, rfl, rfl, rfl⟩

theorem coreEq_trans {a b c : NodeEntity} (h1 : coreEq a b) (h2 : coreEq b c) :
    coreEq a c :=
  ⟨h1.1.trans h2.1, h1.2.1.trans h2.2.1, h1.2.2.1.trans h2.2.2.1,
   h1.2.2.2.trans h2.2.2.2⟩

theorem forall2_coreEq_refl (l : List NodeEntity) : List.Forall₂ coreEq l l := by
  induction l with
  | nil => exact List.Forall₂.nil
  | cons a as ih => exact List.Forall₂.cons (coreEq_refl a) ih

theorem forall2_coreEq_trans :
    ∀ {l1 l2 l3 : List NodeEntity}, List.Forall₂ coreEq l1 l2 →
      List.Forall₂ coreEq l2 l3 → List.Forall₂ coreEq l1 l3 := by
  intro l1 l2 l3 h1
  induction h1 generalizing l3 with
  | nil =>
      intro h2
      cases h2
      exact List.Forall₂.nil
  | cons hab htail ih =>
      intro h2
      cases h2 with
      | cons hbc htail2 => exact List.Forall₂.cons (coreEq_trans hab hbc) (ih htail2)

theorem listModify_forall2 (f : NodeEntity → NodeEntity)
    (hf : ∀ n, coreEq n (f n)) :
    ∀ (k : Nat) (l : List NodeEntity), List.Forall₂ coreEq l (listModify f k l) := by
  intro k l
  induction l generalizing k with
  | nil => cases k <;> exact List.Forall₂.nil
  | cons a as ih =>
      cases k with
      | zero => exact List.Forall₂.cons (hf a) (forall2_coreEq_refl as)
      | succ k => exact List.Forall₂.cons (coreEq_refl a) (ih k)

theorem clearConsumer_coreEq (n : NodeEntity) : coreEq n (clearConsumer n) :=
  ⟨rfl, rfl, rfl, rfl⟩

theorem clearAt_forall2 (indices : List Nat) (l : List NodeEntity) :
    List.Forall₂ coreEq l (clearAt indices l) := by
  induction indices generalizing l with
  | nil => exact forall2_coreEq_refl l
  | cons i is ih =>
      exact forall2_coreEq_trans (listModify_forall2 clearConsumer clearConsumer_coreEq i l)
        (ih (listModify clearConsumer i l))

theorem assignStep_forall2 (indices : List Nat) (i : Nat) (l : List NodeEntity) :
    List.Forall₂ coreEq l (assignStep indices i l) := by
  unfold assignStep
  cases indices[i % indices.length]? with
  | none => exact forall2_coreEq_refl l
  | some gidx =>
      exact listModify_forall2
        (fun node => { node with
          assignedPartitions := some (jsList node.assignedPartitions ++ [i]),
          isIdle := false })
        (fun n => ⟨rfl, rfl, rfl, rfl⟩) gidx l

theorem assignAll_forall2 (indices : List Nat) (p : Nat) (l : List NodeEntity) :
    List.Forall₂ coreEq l (assignAll indices p l) := by
  unfold assignAll
  induction List.range p generalizing l with
  | nil => exact forall2_coreEq_refl l
  | cons i is ih =>
      exact forall2_coreEq_trans (assignStep_forall2 indices i l)
        (ih (assignStep indices i l))

theorem rebalancePass_forall2 (conns : List Connection) (l : List NodeEntity)
    (t : NodeEntity) : List.Forall₂ coreEq l (rebalancePass conns l t) := by
  unfold rebalancePass
  by_cases hc : 0 < (consumerIdx l conns t.id).length
  · simp only [hc, if_true]
    exact forall2_coreEq_trans (clearAt_forall2 _ l) (assignAll_forall2 _ _ _)
  · simp only [hc, if_false]
    exact clearAt_forall2 _ l

theorem triggerRebalance_forall2 (nodes : List NodeEntity) (conns : List Connection) :
    List.Forall₂ coreEq nodes (triggerRebalance nodes conns) := by
  unfold triggerRebalance
  generalize nodes.filter (fun n => n.type == NodeType.TOPIC) = topics
  induction topics generalizing nodes with
  | nil => exact forall2_coreEq_refl nodes
  | cons t ts ih =>
      exact forall2_coreEq_trans (rebalancePass_forall2 conns nodes t)
        (ih (rebalancePass conns nodes t))

theorem forall2_coreEq_mem_right {l l' : List NodeEntity}
    (h : List.Forall₂ coreEq l l') {b : NodeEntity} (hb : b ∈ l') :
    ∃ a ∈ l, coreEq a b := by
  induction h with
  | nil => cases hb
  | cons hab htail ih =>
      rcases List.mem_cons.mp hb with rfl | hb2
      · exact ⟨_, List.mem_cons_self _ _, hab⟩
      · rcases ih hb2 with ⟨a, ha, hc⟩
        exact ⟨a, List.mem_cons_of_mem _ ha, hc⟩

theorem invElem_of_coreEq {a b : NodeEntity} (hc : coreEq a b) (ha : invElem a) :
    invElem b := by
  obtain ⟨hid, hty, hld, hrep⟩ := hc
  intro htype
  have h := ha (hty.trans htype)
  rw [hld, hrep] at h
  exact h

theorem invElem_rebalance {nodes : List NodeEntity} {conns : List Connection}
    (h : ∀ n ∈ nodes, invElem n) :
    ∀ n ∈ triggerRebalance nodes conns, invElem n := by
  intro n hn
  rcases forall2_coreEq_mem_right (triggerRebalance_forall2 nodes conns) hn
    with ⟨a, ha, hc⟩
  exact invElem_of_coreEq hc (h a ha)

theorem invElem_tickNode (bs : Nat → Bool) (s : GameState) (node : NodeEntity)
    (h : invElem node) : invElem (tickNode bs s node).1 := by
  unfold tickNode
  cases hT : (node.type == NodeType.TOPIC) with
  | false => simpa using h
  | true =>
      have hTy : node.type = NodeType.TOPIC := by simpa using hT
      cases halive : jsLeaderAlive bs node.activeLeaderId with
      | true =>
          simp only [halive, if_true]
          intro _
          exact h hTy
      | false =>
          by_cases hctrl : s.activeControllerId = none
          · simp [halive, hctrl]
            intro _
            exact h hTy
          · cases hfind : (jsList node.replicas).find? bs with
            | none =>
                simp [halive, hctrl, hfind]
                intro _
                exact h hTy
            | some cand =>
                have hmem : cand ∈ jsList node.replicas :=
                  List.mem_of_find?_eq_some hfind
                have hbrok : cand ∈ BROKERS := (h hTy).2 cand hmem
                simp [halive, hctrl, hfind]
                intro _
                refine ⟨?_, (h hTy).2⟩
                intro l hl
                rw [Option.some_inj] at hl
                rw [← hl]
                exact ⟨hmem, hbrok⟩

theorem invElem_applyPayload (n : NodeEntity) (u : UpdatePayload)
    (h : invElem n) : invElem (applyPayload n u) := by
  intro htype
  exact h htype

theorem brokers_ne_zero {l : Nat} (hl : l ∈ BROKERS) : l ≠ 0 := by
  simp only [BROKERS] at hl
  rcases List.mem_cons.mp hl with rfl | hl
  · decide
  rcases List.mem_cons.mp hl with rfl | hl
  · decide
  rcases List.mem_cons.mp hl with rfl | hl
  · decide
  cases hl

theorem invElem_updateNodeEntry (s : GameState) (nid : String) (u : UpdatePayload)
    (shuffled : List Nat) (hsh : ∀ x ∈ shuffled, x ∈ BROKERS) (n : NodeEntity)
    (h : invElem n) : invElem (updateNodeEntry s nid u shuffled n).1 := by
  unfold updateNodeEntry
  cases hid : (!(n.id == nid)) with
  | true => simpa using h
  | false =>
      simp only [hid, Bool.false_eq_true, if_false]
      cases hrf : u.replicationFactor with
      | none => exact invElem_applyPayload n u h
      | some newRF =>
          cases hT : (n.type == NodeType.TOPIC) with
          | false =>
              simp only [hT, Bool.false_eq_true, if_false]
              exact invElem_applyPayload n u h
          | true =>
              have hTy : n.type = NodeType.TOPIC := by simpa using hT
              by_cases hzk : (s.clusterMode == ClusterMode.ZOOKEEPER
                  && s.isZookeeperOffline) = true
              · simp only [hT, hzk, if_true]
                exact h
              · by_cases hkr : (s.clusterMode == ClusterMode.KRAFT
                    && jsFalsyCtrl s.activeControllerId) = true
                · simp only [hT, eq_false_of_ne_true hzk, hkr,
                    Bool.false_eq_true, if_false, if_true]
                  exact h
                · simp only [hT, eq_false_of_ne_true hzk, eq_false_of_ne_true hkr,
                    Bool.false_eq_true, if_false, if_true]
                  intro _
                  cases hld : n.activeLeaderId with
                  | none =>
                      refine ⟨?_, ?_⟩
                      · intro l hl
                        simp only [applyPayload] at hl
                        rw [hld] at hl
                        cases hl
                      · intro r hr
                        simp only [applyPayload, hld, jsList, Option.getD,
                          pickBrokers] at hr
                        rw [if_neg (by decide : ¬(101 : Nat) = 0)] at hr
                        rcases List.mem_cons.mp hr with rfl | hr2
                        · decide
                        · exact hsh r (List.mem_of_mem_take hr2)
                  | some l =>
                      have hl := (h hTy).1 l hld
                      have hne := brokers_ne_zero hl.2
                      refine ⟨?_, ?_⟩
                      · intro l2 hl2
                        simp only [applyPayload] at hl2
                        rw [hld, Option.some_inj] at hl2
                        subst hl2
                        refine ⟨?_, hl.2⟩
                        simp [applyPayload, hld, pickBrokers, if_neg hne, jsList]
                      · intro r hr
                        simp only [applyPayload, hld, jsList, Option.getD,
                          pickBrokers, if_neg hne] at hr
                        rcases List.mem_cons.mp hr with rfl | hr2
                        · exact hl.2
                        · exact hsh r (List.mem_of_mem_take hr2)

theorem invElem_mkNewNode (ty : NodeType) (nid : String) (count b : Nat)
    (hb : b ∈ BROKERS) : invElem (mkNewNode ty nid count b) := by
  intro htype
  have hty : ty = NodeType.TOPIC := htype
  subst hty
  have h1 : (mkNewNode NodeType.TOPIC nid count b).activeLeaderId = some b := rfl
  have h2 : jsList (mkNewNode NodeType.TOPIC nid count b).replicas = [b] := rfl
  refine ⟨?_, ?_⟩
  · intro l hl
    rw [h1, Option.some_inj] at hl
    subst hl
    refine ⟨?_, hb⟩
    rw [h2]
    exact List.mem_singleton.mpr rfl
  · intro r hr
    rw [h2] at hr
    have hr2 := List.mem_singleton.mp hr
    subst hr2
    exact hb

theorem nodes_appendFoldKV (logs : List (String × String)) (ts : Nat) (s : GameState) :
    (logs.foldl (fun acc kv =>
        appendMetadataRecord ts MetadataRecordType.PARTITION_CHANGE kv.1 kv.2 acc) s).nodes
      = s.nodes := by
  induction logs generalizing s with
  | nil => rfl
  | cons kv rest ih =>
      rw [List.foldl_cons, ih]
      rfl

theorem invC9_pres_addNode (ty : NodeType) (nid connId eid : String) (b ts : Nat)
    (s : GameState) (hb : b ∈ BROKERS) (ih : ∀ n ∈ s.nodes, invElem n) :
    ∀ n ∈ (addNode ty nid connId b eid ts s).nodes, invElem n := by
  intro n hn
  unfold addNode at hn
  by_cases hguard : (ty == NodeType.TOPIC && metadataDown s) = true
  · rw [if_pos hguard] at hn
    exact ih n hn
  · rw [if_neg hguard] at hn
    have hbase : ∀ m ∈ s.nodes ++ [mkNewNode ty nid s.nodes.length b], invElem m := by
      intro m hm
      rcases List.mem_append.mp hm with hm1 | hm2
      · exact ih m hm1
      · rw [List.mem_singleton.mp hm2]
        exact invElem_mkNewNode ty nid s.nodes.length b hb
    cases hty2 : (ty == NodeType.TOPIC) with
    | false =>
        rw [hty2] at hn
        exact invElem_rebalance hbase n hn
    | true =>
        rw [hty2] at hn
        cases hm : s.clusterMode with
        | ZOOKEEPER =>
            rw [hm] at hn
            exact invElem_rebalance hbase n hn
        | KRAFT =>
            rw [hm] at hn
            exact invElem_rebalance hbase n hn

theorem invC9_pres_deleteNode (nid eid : String) (ts : Nat) (s : GameState)
    (ih : ∀ n ∈ s.nodes, invElem n) :
    ∀ n ∈ (deleteNode nid eid ts s).nodes, invElem n := by
  intro n hn
  unfold deleteNode at hn
  have hbase : ∀ m ∈ s.nodes.filter (fun n => !(n.id == nid)), invElem m :=
    fun m hm => ih m (List.mem_of_mem_filter hm)
  cases hfind : s.nodes.find? (fun n => n.id == nid) with
  | none =>
      rw [hfind] at hn
      exact invElem_rebalance hbase n hn
  | some nd =>
      rw [hfind] at hn
      dsimp only at hn
      by_cases hty : (nd.type == NodeType.TOPIC) = true
      · rw [if_pos hty] at hn
        cases hm : s.clusterMode with
        | ZOOKEEPER =>
            rw [hm] at hn
            exact invElem_rebalance hbase n hn
        | KRAFT =>
            rw [hm] at hn
            exact invElem_rebalance hbase n hn
      · rw [if_neg hty] at hn
        exact invElem_rebalance hbase n hn

theorem invC9_pres_updateNode (nid : String) (u : UpdatePayload) (shuffled : List Nat)
    (ts : Nat) (s : GameState) (hsh : ∀ x ∈ shuffled, x ∈ BROKERS)
    (ih : ∀ n ∈ s.nodes, invElem n) :
    ∀ n ∈ (updateNode nid u shuffled ts s).nodes, invElem n := by
  intro n hn
  unfold updateNode at hn
  rw [nodes_appendFold] at hn
  have hbase : ∀ m ∈ (s.nodes.map (updateNodeEntry s nid u shuffled)).map
      (fun e => e.1), invElem m := by
    intro m hm
    rw [List.map_map] at hm
    rcases List.mem_map.mp hm with ⟨a, ha, rfl⟩
    exact invElem_updateNodeEntry s nid u shuffled hsh a (ih a ha)
  by_cases hp : u.partitions.isSome = true
  · rw [if_pos hp] at hn
    exact invElem_rebalance hbase n hn
  · rw [if_neg hp] at hn
    exact hbase n hn

theorem invC9_pres_tickStep (bs : Nat → Bool) (ts : Nat) (s : GameState)
    (ih : ∀ n ∈ s.nodes, invElem n) :
    ∀ n ∈ (tickStep bs ts s).nodes, invElem n := by
  intro n hn
  unfold tickStep at hn
  by_cases hreb : (s.nodes.any (fun n => n.isRebalancing)) = true
  · rw [if_pos hreb] at hn
    exact ih n hn
  · rw [if_neg hreb] at hn
    rw [nodes_appendFoldKV] at hn
    rw [List.map_map] at hn
    rcases List.mem_map.mp hn with ⟨a, ha, rfl⟩
    exact invElem_tickNode bs s a (ih a ha)

theorem nodes_electionStep (bs : Nat → Bool) (eid : String) (ts : Nat)
    (s : GameState) : (electionStep bs eid ts s).nodes = s.nodes := by
  unfold electionStep
  dsimp only
  repeat' split
  all_goals rfl

theorem nodes_togglePause (s : GameState) : (togglePause s).nodes = s.nodes := by
  unfold togglePause
  split
  · rfl
  · rfl

theorem nodes_toggleBroker (bid : Nat) (wasLive : Bool) (eid : String) (ts : Nat)
    (s : GameState) : (toggleBroker bid wasLive eid ts s).nodes = s.nodes := by
  unfold toggleBroker
  repeat' split
  all_goals rfl

theorem nodes_toggleZookeeper (s : GameState) :
    (toggleZookeeper s).nodes = s.nodes := by
  unfold toggleZookeeper
  split
  · rfl
  · rfl

theorem reachable_invC9 {s : GameState} (h : Reachable s) :
    ∀ n ∈ s.nodes, invElem n := by
  induction h with
  | init =>
      intro n hn
      cases hn
  | step hr hstep ih =>
      cases hstep with
      | addNodeStep ty nid connId eid b ts _ hb =>
          exact invC9_pres_addNode ty nid connId eid b ts _ hb ih
      | deleteNodeStep nid eid ts _ =>
          exact invC9_pres_deleteNode nid eid ts _ ih
      | updateNodeStep nid u shuffled ts _ hsh =>
          exact invC9_pres_updateNode nid u shuffled ts _ hsh ih
      | tickStepStep bs ts _ =>
          exact invC9_pres_tickStep bs ts _ ih
      | electionStepStep bs eid ts _ =>
          intro n hn
          rw [nodes_electionStep] at hn
          exact ih n hn
      | resetStep _ =>
          intro n hn
          cases hn
      | retryStep _ =>
          intro n hn
          rcases List.mem_map.mp hn with ⟨a, ha, rfl⟩
          exact invElem_of_coreEq ⟨rfl, rfl, rfl, rfl⟩ (ih a ha)
      | pauseStep _ =>
          intro n hn
          rw [nodes_togglePause] at hn
          exact ih n hn
      | modeStep _ =>
          intro n hn
          exact ih n hn
      | brokerStep bid wasLive eid ts _ =>
          intro n hn
          rw [nodes_toggleBroker] at hn
          exact ih n hn
      | zkStep _ =>
          intro n hn
          rw [nodes_toggleZookeeper] at hn
          exact ih n hn
      | clearRebStep _ =>
          intro n hn
          rcases List.mem_map.mp hn with ⟨a, ha, rfl⟩
          exact invElem_of_coreEq ⟨rfl, rfl, rfl, rfl⟩ (ih a ha)

/-- C9: In every reachable state, every topic node with a non-null leader has
that leader inside its replica array; the replica set reselected on a
replication-factor change keeps the (truthy) current leader as its first
element. -/
theorem c9_leader_in_replicas (s : GameState) (h : Reachable s) :
    (∀ n ∈ s.nodes, n.type = NodeType.TOPIC →
      ∀ l, n.activeLeaderId = some l → l ∈ jsList n.replicas)
  ∧ (∀ count p shuffled, p ≠ 0 →
      (pickBrokers count (some p) shuffled).head? = some p) := by
  constructor
  · intro n hn htype l hl
    exact ((reachable_invC9 h n hn htype).1 l hl).1
  · intro count p shuffled hp
    simp [pickBrokers, hp]

/-- C9 witness: the invariant holds of the state reached by creating one
topic from the initial state, and the reselection property at broker 103. -/
theorem c9_leader_in_replicas_witness :
    (∀ n ∈ (addNode NodeType.TOPIC "t9" "k9" 102 "e9" 9 initialGameState).nodes,
      n.type = NodeType.TOPIC →
      ∀ l, n.activeLeaderId = some l → l ∈ jsList n.replicas)
  ∧ (pickBrokers 2 (some 103) [101, 102]).head? = some 103 := by
  have h := c9_leader_in_replicas
    (addNode NodeType.TOPIC "t9" "k9" 102 "e9" 9 initialGameState)
    (Reachable.step Reachable.init
      (Step.addNodeStep NodeType.TOPIC "t9" "k9" "e9" 102 9 initialGameState
        (by decide)))
  exact ⟨h.1, h.2 2 103 [101, 102] (by decide)⟩

/-! ### Claim C10: boundedness of the metadata-operation logs -/

theorem zkLogs_appendFold (logs : List (MetadataRecordType × String × String))
    (ts : Nat) (s : GameState) :
    (logs.foldl (fun acc kv => appendMetadataRecord ts kv.1 kv.2.1 kv.2.2 acc) s).zkLogs
      = s.zkLogs := by
  induction logs generalizing s with
  | nil => rfl
  | cons kv rest ih =>
      rw [List.foldl_cons, ih]
      rfl

theorem zkLogs_appendFoldKV (logs : List (String × String)) (ts : Nat) (s : GameState) :
    (logs.foldl (fun acc kv =>
        appendMetadataRecord ts MetadataRecordType.PARTITION_CHANGE kv.1 kv.2 acc) s).zkLogs
      = s.zkLogs := by
  induction logs generalizing s with
  | nil => rfl
  | cons kv rest ih =>
      rw [List.foldl_cons, ih]
      rfl

theorem zk_bound_addZkLog (eid : String) (ts : Nat) (a : ZkAction) (pth : String)
    (d : Option String) (s : GameState) :
    (addZkLog eid ts a pth d s).zkLogs.length ≤ 10 := by
  simp only [addZkLog]
  rw [List.length_take]
  exact Nat.min_le_left _ _

theorem zk_bound_addNode (ty : NodeType) (nid connId : String) (b : Nat)
    (eid : String) (ts : Nat) (s : GameState) (h : s.zkLogs.length ≤ 10) :
    (addNode ty nid connId b eid ts s).zkLogs.length ≤ 10 := by
  unfold addNode
  dsimp only
  repeat' split
  all_goals first
    | exact h
    | exact zk_bound_addZkLog _ _ _ _ _ _

theorem zk_bound_deleteNode (nid eid : String) (ts : Nat) (s : GameState)
    (h : s.zkLogs.length ≤ 10) :
    (deleteNode nid eid ts s).zkLogs.length ≤ 10 := by
  unfold deleteNode
  dsimp only
  repeat' split
  all_goals first
    | exact h
    | exact zk_bound_addZkLog _ _ _ _ _ _

theorem zk_bound_updateNode (nid : String) (u : UpdatePayload) (shuffled : List Nat)
    (ts : Nat) (s : GameState) (h : s.zkLogs.length ≤ 10) :
    (updateNode nid u shuffled ts s).zkLogs.length ≤ 10 := by
  unfold updateNode
  dsimp only
  rw [zkLogs_appendFold]
  exact h

theorem zk_bound_tickStep (bs : Nat → Bool) (ts : Nat) (s : GameState)
    (h : s.zkLogs.length ≤ 10) : (tickStep bs ts s).zkLogs.length ≤ 10 := by
  unfold tickStep
  dsimp only
  split
  · exact h
  · rw [zkLogs_appendFoldKV]
    exact h

theorem zk_bound_electionStep (bs : Nat → Bool) (eid : String) (ts : Nat)
    (s : GameState) (h : s.zkLogs.length ≤ 10) :
    (electionStep bs eid ts s).zkLogs.length ≤ 10 := by
  unfold electionStep
  dsimp only
  repeat' split
  all_goals first
    | exact h
    | exact zk_bound_addZkLog _ _ _ _ _ _

theorem zk_bound_toggleBroker (bid : Nat) (wasLive : Bool) (eid : String) (ts : Nat)
    (s : GameState) (h : s.zkLogs.length ≤ 10) :
    (toggleBroker bid wasLive eid ts s).zkLogs.length ≤ 10 := by
  unfold toggleBroker
  repeat' split
  all_goals first
    | exact h
    | exact zk_bound_addZkLog _ _ _ _ _ _

theorem reachable_zk_bound {s : GameState} (h : Reachable s) :
    s.zkLogs.length ≤ 10 := by
  induction h with
  | init => decide
  | step hr hstep ih =>
      cases hstep with
      | addNodeStep ty nid connId eid b ts _ hb =>
          exact zk_bound_addNode ty nid connId b eid ts _ ih
      | deleteNodeStep nid eid ts _ =>
          exact zk_bound_deleteNode nid eid ts _ ih
      | updateNodeStep nid u shuffled ts _ hsh =>
          exact zk_bound_updateNode nid u shuffled ts _ ih
      | tickStepStep bs ts _ =>
          exact zk_bound_tickStep bs ts _ ih
      | electionStepStep bs eid ts _ =>
          exact zk_bound_electionStep bs eid ts _ ih
      | resetStep _ =>
          show (([] : List ZkLogEntry)).length ≤ 10
          decide
      | retryStep _ =>
          show (([] : List ZkLogEntry)).length ≤ 10
          decide
      | pauseStep _ =>
          unfold togglePause
          split
          · exact ih
          · exact ih
      | modeStep _ =>
          show (([] : List ZkLogEntry)).length ≤ 10
          decide
      | brokerStep bid wasLive eid ts _ =>
          exact zk_bound_toggleBroker bid wasLive eid ts _ ih
      | zkStep _ =>
          unfold toggleZookeeper
          split
          · exact ih
          · exact ih
      | clearRebStep _ =>
          exact ih

/-- C10 (amended): in every reachable state the PRIMARY-mode (ZooKeeper)
operation log holds at most 10 entries, while the SELF-MANAGED (KRaft)
metadata log is append-only: every appended record grows it by exactly one
entry, so it is not capped. -/
theorem c10_zk_bounded_raft_append_only (s : GameState) (h : Reachable s) :
    s.zkLogs.length ≤ 10
  ∧ ∀ ts ty k v, (appendMetadataRecord ts ty k v s).raftLogs.length
      = s.raftLogs.length + 1 := by
  refine ⟨reachable_zk_bound h, ?_⟩
  intro ts ty k v
  simp [appendMetadataRecord]

/-- C10 witness: the amended claim instantiated at the initial state. -/
theorem c10_zk_bounded_raft_append_only_witness :
    initialGameState.zkLogs.length ≤ 10
  ∧ (appendMetadataRecord 0 MetadataRecordType.TOPIC_CONFIG "k" "v"
      initialGameState).raftLogs.length = initialGameState.raftLogs.length + 1 := by
  have h := c10_zk_bounded_raft_append_only initialGameState Reachable.init
  exact ⟨h.1, h.2 0 MetadataRecordType.TOPIC_CONFIG "k" "v"⟩

/-- C10 counterexample: the KRaft metadata log of a reachable state exceeds
the 10-entry recent window (it grows without bound, one entry per appended
operation). -/
theorem c10_counterexample_raft_log_unbounded :
    Reachable raftGrowthState ∧ 10 < raftGrowthState.raftLogs.length := by
  constructor
  · have h0 : Reachable (toggleClusterMode initialGameState) :=
      Reachable.step Reachable.init (Step.modeStep _)
    have hit : ∀ (k : Nat) (s0 : GameState), Reachable s0 →
        Reachable ((toggleBroker 101 true "e" 0)^[k] s0) := by
      intro k
      induction k with
      | zero =>
          intro s0 hs
          simpa using hs
      | succ k ih =>
          intro s0 hs
          rw [Function.iterate_succ_apply']
          exact Reachable.step (ih s0 hs) (Step.brokerStep 101 true "e" 0 _)
    exact hit 11 _ h0
  · decide

/-- C7 witness: the gating facts instantiated on a concrete terminated state. -/
theorem c7_terminated_gating_witness :
    togglePause terminatedState = terminatedState
  ∧ (deleteNode "p1" "e" 0 terminatedState).nodes
      = triggerRebalance (terminatedState.nodes.filter (fun n => !(n.id == "p1")))
          (terminatedState.connections.filter
            (fun c => !(c.sourceId == "p1") && !(c.targetId == "p1"))) := by
  have h := c7_terminated_gating terminatedState (by decide)
  exact ⟨h.1, (h.2.1 "p1" "e" 0).1⟩

/-! ### Claims C2 and C3: machinery for the rebalancer

Index-level lemmas about `listModify`, `idxWhere`, the round-robin loop and
the per-topic passes, leading to a pointwise characterization of
`triggerRebalance`. -/

theorem length_listModify (f : α → α) :
    ∀ (k : Nat) (l : List α), (listModify f k l).length = l.length := by
  intro k l
  induction l generalizing k with
  | nil => cases k <;> rfl
  | cons a as ih =>
      cases k with
      | zero => rfl
      | succ k => simpa [listModify] using ih k

theorem getElem?_listModify (f : α → α) :
    ∀ (k : Nat) (l : List α) (i : Nat),
      (listModify f k l)[i]? = if i = k then (l[i]?).map f else l[i]? := by
  intro k l
  induction l generalizing k with
  | nil =>
      intro i
      cases k <;> simp [listModify]
  | cons a as ih =>
      intro i
      cases k with
      | zero =>
          cases i with
          | zero => simp [listModify]
          | succ i => simp [listModify]
      | succ k =>
          cases i with
          | zero => simp [listModify]
          | succ i => simpa [listModify] using ih k i

theorem idxWhere_mem {p : α → Bool} :
    ∀ (l : List α) (k i : Nat),
      i ∈ idxWhere p l k ↔ ∃ j a, l[j]? = some a ∧ p a = true ∧ i = k + j := by
  intro l
  induction l with
  | nil =>
      intro k i
      simp [idxWhere]
  | cons a as ih =>
      intro k i
      constructor
      · intro h
        unfold idxWhere at h
        by_cases hpa : p a = true
        · rw [if_pos hpa] at h
          rcases List.mem_cons.mp h with rfl | h2
          · exact ⟨0, a, by simp, hpa, rfl⟩
          · rcases (ih (k + 1) i).mp h2 with ⟨j, b, hj, hb, hi⟩
            exact ⟨j + 1, b, by simpa using hj, hb, by omega⟩
        · rw [if_neg hpa] at h
          rcases (ih (k + 1) i).mp h with ⟨j, b, hj, hb, hi⟩
          exact ⟨j + 1, b, by simpa using hj, hb, by omega⟩
      · rintro ⟨j, b, hj, hb, rfl⟩
        unfold idxWhere
        cases j with
        | zero =>
            rw [List.getElem?_cons_zero, Option.some_inj] at hj
            subst hj
            rw [if_pos hb]
            exact List.mem_cons_self _ _
        | succ j =>
            rw [List.getElem?_cons_succ] at hj
            have hmem : k + 1 + j ∈ idxWhere p as (k + 1) :=
              (ih (k + 1) (k + 1 + j)).mpr ⟨j, b, hj, hb, rfl⟩
            have harith : k + (j + 1) = k + 1 + j := by omega
            by_cases hpa : p a = true
            · rw [if_pos hpa]
              rw [harith]
              exact List.mem_cons_of_mem _ hmem
            · rw [if_neg hpa]
              rw [harith]
              exact hmem

theorem idxWhere_ge {p : α → Bool} (l : List α) (k i : Nat)
    (h : i ∈ idxWhere p l k) : k ≤ i := by
  rcases (idxWhere_mem l k i).mp h with ⟨j, a, _, _, rfl⟩
  omega

theorem idxWhere_pairwise_lt {p : α → Bool} :
    ∀ (l : List α) (k : Nat), (idxWhere p l k).Pairwise (· < ·) := by
  intro l
  induction l with
  | nil => intro k; exact List.Pairwise.nil
  | cons a as ih =>
      intro k
      unfold idxWhere
      by_cases hpa : p a = true
      · rw [if_pos hpa]
        refine List.Pairwise.cons ?_ (ih (k + 1))
        intro x hx
        have := idxWhere_ge as (k + 1) x hx
        omega
      · rw [if_neg hpa]
        exact ih (k + 1)

theorem idxWhere_lt_length {p : α → Bool} (l : List α) (i : Nat)
    (h : i ∈ idxWhere p l 0) : i < l.length := by
  rcases (idxWhere_mem l 0 i).mp h with ⟨j, a, hj, _, rfl⟩
  obtain ⟨hlt, _⟩ := List.getElem?_eq_some.mp hj
  omega

theorem idxWhere_sound {p : α → Bool} (l : List α) (i : Nat)
    (h : i ∈ idxWhere p l 0) : ∃ a, l[i]? = some a ∧ p a = true := by
  rcases (idxWhere_mem l 0 i).mp h with ⟨j, a, hj, hpa, hij⟩
  exact ⟨a, by simpa [hij] using hj, hpa⟩

theorem idxWhere_complete {p : α → Bool} (l : List α) (i : Nat) (a : α)
    (ha : l[i]? = some a) (hpa : p a = true) : i ∈ idxWhere p l 0 := by
  exact (idxWhere_mem l 0 i).mpr ⟨i, a, ha, hpa, by omega⟩

theorem pairwise_lt_getElem?_inj {l : List Nat} (h : l.Pairwise (· < ·))
    {i j x : Nat} (hi : l[i]? = some x) (hj : l[j]? = some x) : i = j := by
  have hgi := List.getElem?_eq_some.mp hi
  have hgj := List.getElem?_eq_some.mp hj
  obtain ⟨hi', hxi⟩ := hgi
  obtain ⟨hj', hxj⟩ := hgj
  have hpg := List.pairwise_iff_getElem.mp h
  rcases Nat.lt_trichotomy i j with hlt | heq | hgt
  · have := hpg i j hi' hj' hlt
    rw [hxi, hxj] at this
    omega
  · exact heq
  · have := hpg j i hj' hi' hgt
    rw [hxi, hxj] at this
    omega

theorem idxWhere_congr {p : α → Bool} :
    ∀ {l l' : List α}, List.Forall₂ (fun a b => p a = p b) l l' →
      ∀ (k : Nat), idxWhere p l k = idxWhere p l' k := by
  intro l l' h
  induction h with
  | nil => intro k; rfl
  | cons hab htail ih =>
      intro k
      unfold idxWhere
      rw [hab, ih (k + 1)]

theorem bucket_zero (c j : Nat) : bucket c 0 j = [] := rfl

theorem bucket_succ_self {c p j : Nat} (h : p % c = j) :
    bucket c (p + 1) j = bucket c p j ++ [p] := by
  unfold bucket
  rw [List.range_succ, List.filter_append]
  simp [h]

theorem bucket_succ_ne {c p j : Nat} (h : ¬ p % c = j) :
    bucket c (p + 1) j = bucket c p j := by
  unfold bucket
  rw [List.range_succ, List.filter_append]
  simp [h]

theorem length_clearAt (indices : List Nat) (l : List NodeEntity) :
    (clearAt indices l).length = l.length := by
  induction indices generalizing l with
  | nil => rfl
  | cons x xs ih =>
      unfold clearAt
      rw [List.foldl_cons]
      have := ih (listModify clearConsumer x l)
      unfold clearAt at this
      rw [this, length_listModify]

theorem getElem?_clearAt_not_mem (indices : List Nat) (l : List NodeEntity)
    (i : Nat) (h : i ∉ indices) : (clearAt indices l)[i]? = l[i]? := by
  induction indices generalizing l with
  | nil => rfl
  | cons x xs ih =>
      unfold clearAt
      rw [List.foldl_cons]
      have hx : i ≠ x := fun heq => h (heq ▸ List.mem_cons_self x xs)
      have hxs : i ∉ xs := fun hm => h (List.mem_cons_of_mem x hm)
      have := ih (listModify clearConsumer x l) hxs
      unfold clearAt at this
      rw [this, getElem?_listModify, if_neg hx]

theorem getElem?_clearAt_mem (indices : List Nat) (l : List NodeEntity)
    (i : Nat) (hnd : indices.Nodup) (h : i ∈ indices) :
    (clearAt indices l)[i]? = (l[i]?).map clearConsumer := by
  induction indices generalizing l with
  | nil => cases h
  | cons x xs ih =>
      unfold clearAt
      rw [List.foldl_cons]
      rcases List.mem_cons.mp h with rfl | h2
      · have hx : i ∉ xs := (List.nodup_cons.mp hnd).1
        have := getElem?_clearAt_not_mem xs (listModify clearConsumer i l) i hx
        unfold clearAt at this
        rw [this, getElem?_listModify, if_pos rfl]
      · have hne : i ≠ x := by
          intro heq
          exact (List.nodup_cons.mp hnd).1 (heq ▸ h2)
        have := ih (listModify clearConsumer x l) (List.nodup_cons.mp hnd).2 h2
        unfold clearAt at this
        rw [this, getElem?_listModify, if_neg hne]

theorem length_assignStep (indices : List Nat) (i : Nat) (l : List NodeEntity) :
    (assignStep indices i l).length = l.length := by
  unfold assignStep
  cases indices[i % indices.length]? with
  | none => rfl
  | some gidx => exact length_listModify _ gidx l

theorem assignAll_succ (indices : List Nat) (p : Nat) (l : List NodeEntity) :
    assignAll indices (p + 1) l = assignStep indices p (assignAll indices p l) := by
  unfold assignAll
  rw [List.range_succ, List.foldl_append]
  rfl

theorem length_assignAll (indices : List Nat) (p : Nat) (l : List NodeEntity) :
    (assignAll indices p l).length = l.length := by
  induction p with
  | zero => rfl
  | succ p ih => rw [assignAll_succ, length_assignStep, ih]

theorem getElem?_assignAll_not_mem (indices : List Nat) (p : Nat)
    (l : List NodeEntity) (i : Nat) (h : i ∉ indices) :
    (assignAll indices p l)[i]? = l[i]? := by
  induction p with
  | zero => rfl
  | succ p ih =>
      rw [assignAll_succ]
      unfold assignStep
      cases hg : indices[p % indices.length]? with
      | none => exact ih
      | some gidx =>
          have hmem : gidx ∈ indices := List.getElem?_mem hg
          have hne : i ≠ gidx := fun heq => h (heq ▸ hmem)
          rw [getElem?_listModify, if_neg hne]
          exact ih

theorem getElem?_assignAll_mem (indices : List Nat)
    (hnd : indices.Pairwise (· < ·)) (hc : 0 < indices.length)
    (l : List NodeEntity)
    (hsome : ∀ gi ∈ indices, ∀ n, l[gi]? = some n →
      n.assignedPartitions.isSome = true) :
    ∀ (p j gi : Nat), indices[j]? = some gi →
      (assignAll indices p l)[gi]? = (l[gi]?).map (fun n =>
        { n with
          assignedPartitions :=
            some (jsList n.assignedPartitions ++ bucket indices.length p j),
          isIdle := if bucket indices.length p j = [] then n.isIdle else false }) := by
  intro p
  induction p with
  | zero =>
      intro j gi hj
      rw [bucket_zero]
      cases hl : l[gi]? with
      | none =>
          simp only [assignAll, List.range_zero, List.foldl_nil, hl, Option.map_none']
      | some n =>
          rcases Option.isSome_iff_exists.mp
            (hsome gi (List.getElem?_mem hj) n hl) with ⟨v, hv⟩
          simp only [assignAll, List.range_zero, List.foldl_nil, hl, Option.map_some',
            List.append_nil, if_pos rfl]
          rw [Option.some_inj]
          conv_rhs => rw [show some (jsList n.assignedPartitions) = n.assignedPartitions
            from by rw [hv]; rfl]
          rfl
  | succ p ih =>
      intro j gi hj
      rw [assignAll_succ]
      have hj0lt : p % indices.length < indices.length := Nat.mod_lt _ hc
      obtain ⟨g0, hg0⟩ : ∃ g0, indices[p % indices.length]? = some g0 :=
        ⟨indices.get ⟨p % indices.length, hj0lt⟩,
          List.getElem?_eq_some.mpr ⟨hj0lt, rfl⟩⟩
      unfold assignStep
      rw [hg0]
      rw [getElem?_listModify]
      by_cases hgg : gi = g0
      · subst hgg
        have hjj : j = p % indices.length := pairwise_lt_getElem?_inj hnd hj hg0
        subst hjj
        rw [if_pos rfl, ih _ _ hj]
        cases hl : l[gi]? with
        | none => rfl
        | some n =>
            have hself : bucket indices.length (p + 1) (p % indices.length)
                = bucket indices.length p (p % indices.length) ++ [p] :=
              bucket_succ_self rfl
            simp only [Option.map_some', Option.map_map, hself]
            simp [jsList, Function.comp, List.append_assoc]
      · rw [if_neg hgg]
        have hjj : ¬ p % indices.length = j := by
          intro heq
          rw [← heq] at hj
          exact hgg (Option.some_inj.mp (hj.symm.trans hg0))
        rw [bucket_succ_ne hjj]
        exact ih j gi hj

theorem consumerIdx_pairwise_lt (l : List NodeEntity) (conns : List Connection)
    (tid : String) : (consumerIdx l conns tid).Pairwise (· < ·) :=
  idxWhere_pairwise_lt l 0

theorem consumerIdx_nodup (l : List NodeEntity) (conns : List Connection)
    (tid : String) : (consumerIdx l conns tid).Nodup :=
  (consumerIdx_pairwise_lt l conns tid).imp Nat.ne_of_lt

theorem consumerIdx_congr {l l' : List NodeEntity}
    (h : List.Forall₂ coreEq l l') (conns : List Connection) (tid : String) :
    consumerIdx l conns tid = consumerIdx l' conns tid := by
  unfold consumerIdx
  refine idxWhere_congr ?_ 0
  refine h.imp ?_
  intro a b hab
  unfold isTopicConsumerOf
  rw [hab.1, hab.2.1]

theorem getElem?_rebalancePass_not_mem (conns : List Connection)
    (l : List NodeEntity) (t : NodeEntity) (i : Nat)
    (h : i ∉ consumerIdx l conns t.id) :
    (rebalancePass conns l t)[i]? = l[i]? := by
  unfold rebalancePass
  dsimp only
  split
  · rw [getElem?_assignAll_not_mem _ _ _ _ h, getElem?_clearAt_not_mem _ _ _ h]
  · exact getElem?_clearAt_not_mem _ _ _ h

theorem getElem?_claimPass_not_mem (conns : List Connection)
    (l : List NodeEntity) (t : NodeEntity) (i : Nat)
    (h : i ∉ consumerIdx l conns t.id) :
    (claimPass conns l t)[i]? = l[i]? := by
  unfold claimPass
  dsimp only
  split
  · exact getElem?_assignAll_not_mem _ _ _ _ h
  · rfl

theorem getElem?_rebalancePass_mem (conns : List Connection)
    (l : List NodeEntity) (t : NodeEntity) (j gi : Nat)
    (hj : (consumerIdx l conns t.id)[j]? = some gi) :
    (rebalancePass conns l t)[gi]? = (l[gi]?).map
      (fullTransform (consumerIdx l conns t.id).length (jsNat1 t.partitions) j) := by
  have hmem : gi ∈ consumerIdx l conns t.id := List.getElem?_mem hj
  have hc : 0 < (consumerIdx l conns t.id).length :=
    List.length_pos.mpr (List.ne_nil_of_mem hmem)
  have hpl := consumerIdx_pairwise_lt l conns t.id
  have hnd := consumerIdx_nodup l conns t.id
  have hsome : ∀ gi' ∈ consumerIdx l conns t.id, ∀ n,
      (clearAt (consumerIdx l conns t.id) l)[gi']? = some n →
      n.assignedPartitions.isSome = true := by
    intro gi' hgi' n hn
    rw [getElem?_clearAt_mem _ _ _ hnd hgi'] at hn
    cases hl : l[gi']? with
    | none => rw [hl] at hn; cases hn
    | some m =>
        rw [hl] at hn
        rw [Option.map_some', Option.some_inj] at hn
        rw [← hn]
        rfl
  unfold rebalancePass
  dsimp only
  rw [if_pos hc]
  rw [getElem?_assignAll_mem (consumerIdx l conns t.id) hpl hc
    (clearAt (consumerIdx l conns t.id) l) hsome (jsNat1 t.partitions) j gi hj]
  rw [getElem?_clearAt_mem _ _ _ hnd hmem]
  cases hl : l[gi]? with
  | none => rfl
  | some n =>
      simp only [Option.map_some', Option.some_inj]
      unfold fullTransform clearConsumer
      simp [jsList]

theorem rebalancePass_length (conns : List Connection) (l : List NodeEntity)
    (t : NodeEntity) : (rebalancePass conns l t).length = l.length := by
  unfold rebalancePass
  dsimp only
  split
  · rw [length_assignAll, length_clearAt]
  · exact length_clearAt _ _

theorem claimPass_length (conns : List Connection) (l : List NodeEntity)
    (t : NodeEntity) : (claimPass conns l t).length = l.length := by
  unfold claimPass
  dsimp only
  split
  · exact length_assignAll _ _ _
  · rfl

theorem claimPass_forall2 (conns : List Connection) (l : List NodeEntity)
    (t : NodeEntity) : List.Forall₂ coreEq l (claimPass conns l t) := by
  unfold claimPass
  dsimp only
  split
  · exact assignAll_forall2 _ _ _
  · exact forall2_coreEq_refl l

theorem foldl_pass_forall2 (conns : List Connection) (ts : List NodeEntity) :
    ∀ start, List.Forall₂ coreEq start (ts.foldl (rebalancePass conns) start) := by
  induction ts with
  | nil => intro start; exact forall2_coreEq_refl start
  | cons u us ih =>
      intro start
      rw [List.foldl_cons]
      exact forall2_coreEq_trans (rebalancePass_forall2 conns start u)
        (ih (rebalancePass conns start u))

theorem foldl_claimPass_forall2 (conns : List Connection) (ts : List NodeEntity) :
    ∀ start, List.Forall₂ coreEq start (ts.foldl (claimPass conns) start) := by
  induction ts with
  | nil => intro start; exact forall2_coreEq_refl start
  | cons u us ih =>
      intro start
      rw [List.foldl_cons]
      exact forall2_coreEq_trans (claimPass_forall2 conns start u)
        (ih (claimPass conns start u))

theorem foldl_pass_untouched (conns : List Connection) (nodes0 : List NodeEntity)
    (ts : List NodeEntity) :
    ∀ (start : List NodeEntity) (i : Nat),
      List.Forall₂ coreEq nodes0 start →
      (∀ u ∈ ts, i ∉ consumerIdx nodes0 conns u.id) →
      (ts.foldl (rebalancePass conns) start)[i]? = start[i]? := by
  induction ts with
  | nil => intro start i _ _; rfl
  | cons u us ih =>
      intro start i hrel hnot
      rw [List.foldl_cons]
      have hstab : consumerIdx start conns u.id = consumerIdx nodes0 conns u.id :=
        (consumerIdx_congr hrel conns u.id).symm
      have h1 : (rebalancePass conns start u)[i]? = start[i]? := by
        refine getElem?_rebalancePass_not_mem conns start u i ?_
        rw [hstab]
        exact hnot u (List.mem_cons_self _ _)
      have hrel2 : List.Forall₂ coreEq nodes0 (rebalancePass conns start u) :=
        forall2_coreEq_trans hrel (rebalancePass_forall2 conns start u)
      rw [ih (rebalancePass conns start u) i hrel2
        (fun v hv => hnot v (List.mem_cons_of_mem _ hv))]
      exact h1

theorem foldl_claimPass_untouched (conns : List Connection) (nodes0 : List NodeEntity)
    (ts : List NodeEntity) :
    ∀ (start : List NodeEntity) (i : Nat),
      List.Forall₂ coreEq nodes0 start →
      (∀ u ∈ ts, i ∉ consumerIdx nodes0 conns u.id) →
      (ts.foldl (claimPass conns) start)[i]? = start[i]? := by
  induction ts with
  | nil => intro start i _ _; rfl
  | cons u us ih =>
      intro start i hrel hnot
      rw [List.foldl_cons]
      have hstab : consumerIdx start conns u.id = consumerIdx nodes0 conns u.id :=
        (consumerIdx_congr hrel conns u.id).symm
      have h1 : (claimPass conns start u)[i]? = start[i]? := by
        refine getElem?_claimPass_not_mem conns start u i ?_
        rw [hstab]
        exact hnot u (List.mem_cons_self _ _)
      have hrel2 : List.Forall₂ coreEq nodes0 (claimPass conns start u) :=
        forall2_coreEq_trans hrel (claimPass_forall2 conns start u)
      rw [ih (claimPass conns start u) i hrel2
        (fun v hv => hnot v (List.mem_cons_of_mem _ hv))]
      exact h1

/-- Pointwise characterization of the source `triggerRebalance` at the
consumers of a topic `t`, valid when the topics' consumer-index sets are
pairwise disjoint (no consumer connected to more than one topic). -/
theorem triggerRebalance_getElem (nodes : List NodeEntity) (conns : List Connection)
    (hdisj : ((nodes.filter (fun n => n.type == NodeType.TOPIC)).map
        (fun t => consumerIdx nodes conns t.id)).Pairwise
        (fun A B => ∀ i ∈ A, i ∉ B))
    (l₁ l₂ : List NodeEntity) (t : NodeEntity)
    (hsplit : nodes.filter (fun n => n.type == NodeType.TOPIC) = l₁ ++ t :: l₂)
    (j gi : Nat) (hj : (consumerIdx nodes conns t.id)[j]? = some gi) :
    (triggerRebalance nodes conns)[gi]?
      = (nodes[gi]?).map (fullTransform (consumerIdx nodes conns t.id).length
          (jsNat1 t.partitions) j) := by
  have hmem : gi ∈ consumerIdx nodes conns t.id := List.getElem?_mem hj
  rw [hsplit, List.map_append, List.map_cons] at hdisj
  obtain ⟨hd₁, hd₂, hd₁₂⟩ := List.pairwise_append.mp hdisj
  have hut₁ : ∀ u ∈ l₁, gi ∉ consumerIdx nodes conns u.id := by
    intro u hu hgiu
    exact hd₁₂ _ (List.mem_map_of_mem _ hu) _ (List.mem_cons_self _ _) gi hgiu hmem
  have hut₂ : ∀ u ∈ l₂, gi ∉ consumerIdx nodes conns u.id := by
    intro u hu hgiu
    exact (List.pairwise_cons.mp hd₂).1 _ (List.mem_map_of_mem _ hu) gi hmem hgiu
  unfold triggerRebalance
  rw [hsplit, List.foldl_append, List.foldl_cons]
  have hrel1 : List.Forall₂ coreEq nodes (l₁.foldl (rebalancePass conns) nodes) :=
    foldl_pass_forall2 conns l₁ nodes
  have h1 : (l₁.foldl (rebalancePass conns) nodes)[gi]? = nodes[gi]? :=
    foldl_pass_untouched conns nodes l₁ nodes gi (forall2_coreEq_refl nodes) hut₁
  have hstab : consumerIdx (l₁.foldl (rebalancePass conns) nodes) conns t.id
      = consumerIdx nodes conns t.id :=
    (consumerIdx_congr hrel1 conns t.id).symm
  have h2 : (rebalancePass conns (l₁.foldl (rebalancePass conns) nodes) t)[gi]?
      = (nodes[gi]?).map (fullTransform (consumerIdx nodes conns t.id).length
          (jsNat1 t.partitions) j) := by
    have := getElem?_rebalancePass_mem conns (l₁.foldl (rebalancePass conns) nodes)
      t j gi (by rw [hstab]; exact hj)
    rw [hstab] at this
    rw [this, h1]
  have hrel2 : List.Forall₂ coreEq nodes
      (rebalancePass conns (l₁.foldl (rebalancePass conns) nodes) t) :=
    forall2_coreEq_trans hrel1 (rebalancePass_forall2 conns _ t)
  rw [foldl_pass_untouched conns nodes l₂ _ gi hrel2 hut₂]
  exact h2

theorem condClear_coreEq (nodes : List NodeEntity) (conns : List Connection)
    (n : NodeEntity) : coreEq n (condClear nodes conns n) := by
  unfold condClear
  cases h : connectedToSomeTopic nodes conns n with
  | true => exact clearConsumer_coreEq n
  | false => exact coreEq_refl n

theorem map_coreEq_forall2 (f : NodeEntity → NodeEntity)
    (hf : ∀ n, coreEq n (f n)) :
    ∀ l : List NodeEntity, List.Forall₂ coreEq l (l.map f) := by
  intro l
  induction l with
  | nil => exact List.Forall₂.nil
  | cons a as ih => exact List.Forall₂.cons (hf a) ih

theorem connected_of_mem_consumerIdx (nodes : List NodeEntity)
    (conns : List Connection) (t : NodeEntity)
    (ht : t ∈ nodes.filter (fun x => x.type == NodeType.TOPIC)) (gi : Nat)
    (n : NodeEntity) (hgi : gi ∈ consumerIdx nodes conns t.id)
    (hn : nodes[gi]? = some n) :
    connectedToSomeTopic nodes conns n = true := by
  rcases idxWhere_sound nodes gi hgi with ⟨a, ha, hpa⟩
  have han : a = n := Option.some_inj.mp (ha.symm.trans hn)
  subst han
  obtain ⟨htm, htt⟩ := List.mem_filter.mp ht
  unfold isTopicConsumerOf at hpa
  rw [Bool.and_eq_true] at hpa
  obtain ⟨h1, h2⟩ := hpa
  unfold connectedToSomeTopic
  rw [Bool.and_eq_true]
  exact ⟨h1, List.any_eq_true.mpr ⟨t, htm, by rw [Bool.and_eq_true]; exact ⟨htt, h2⟩⟩⟩

theorem mem_consumerIdx_of_connected (nodes : List NodeEntity)
    (conns : List Connection) (gi : Nat) (n : NodeEntity)
    (hn : nodes[gi]? = some n)
    (hc : connectedToSomeTopic nodes conns n = true) :
    ∃ t ∈ nodes.filter (fun x => x.type == NodeType.TOPIC),
      gi ∈ consumerIdx nodes conns t.id := by
  unfold connectedToSomeTopic at hc
  rw [Bool.and_eq_true] at hc
  obtain ⟨h1, h2⟩ := hc
  rcases List.any_eq_true.mp h2 with ⟨t, htm, hb⟩
  rw [Bool.and_eq_true] at hb
  obtain ⟨htt, hconn⟩ := hb
  refine ⟨t, List.mem_filter.mpr ⟨htm, htt⟩, ?_⟩
  refine idxWhere_complete nodes gi n hn ?_
  unfold isTopicConsumerOf
  rw [Bool.and_eq_true]
  exact ⟨h1, hconn⟩

theorem triggerRebalance_getElem_untouched (nodes : List NodeEntity)
    (conns : List Connection) (gi : Nat)
    (h : ∀ u ∈ nodes.filter (fun x => x.type == NodeType.TOPIC),
      gi ∉ consumerIdx nodes conns u.id) :
    (triggerRebalance nodes conns)[gi]? = nodes[gi]? := by
  unfold triggerRebalance
  exact foldl_pass_untouched conns nodes _ nodes gi (forall2_coreEq_refl nodes) h

theorem triggerRebalanceClaim_getElem_untouched (nodes : List NodeEntity)
    (conns : List Connection) (gi : Nat)
    (h : ∀ u ∈ nodes.filter (fun x => x.type == NodeType.TOPIC),
      gi ∉ consumerIdx nodes conns u.id) :
    (triggerRebalanceClaim nodes conns)[gi]? = nodes[gi]? := by
  unfold triggerRebalanceClaim
  dsimp only
  rw [foldl_claimPass_untouched conns nodes _ (nodes.map (condClear nodes conns)) gi
    (map_coreEq_forall2 _ (condClear_coreEq nodes conns) nodes) h]
  rw [List.getElem?_map]
  cases hn : nodes[gi]? with
  | none => rfl
  | some n =>
      rw [Option.map_some', Option.some_inj]
      by_cases hcon : connectedToSomeTopic nodes conns n = true
      · exfalso
        rcases mem_consumerIdx_of_connected nodes conns gi n hn hcon with ⟨t, ht, hgi⟩
        exact h t ht hgi
      · unfold condClear
        rw [if_neg ?_]
        intro hx
        exact hcon hx

theorem claimPass_getElem_mem (conns : List Connection) (L : List NodeEntity)
    (t : NodeEntity) (j gi : Nat)
    (hj : (consumerIdx L conns t.id)[j]? = some gi)
    (hsome : ∀ gi' ∈ consumerIdx L conns t.id, ∀ n, L[gi']? = some n →
      n.assignedPartitions.isSome = true) :
    (claimPass conns L t)[gi]? = (L[gi]?).map (fun n =>
      { n with
        assignedPartitions := some (jsList n.assignedPartitions ++
          bucket (consumerIdx L conns t.id).length (jsNat1 t.partitions) j),
        isIdle := if bucket (consumerIdx L conns t.id).length (jsNat1 t.partitions) j = []
          then n.isIdle else false }) := by
  have hmem : gi ∈ consumerIdx L conns t.id := List.getElem?_mem hj
  have hc : 0 < (consumerIdx L conns t.id).length :=
    List.length_pos.mpr (List.ne_nil_of_mem hmem)
  unfold claimPass
  dsimp only
  rw [if_pos hc]
  exact getElem?_assignAll_mem (consumerIdx L conns t.id)
    (consumerIdx_pairwise_lt L conns t.id) hc L hsome (jsNat1 t.partitions) j gi hj

/-- Pointwise characterization of the claimed (global-reset) rebalance at the
consumers of a topic `t`, under the same disjointness condition. -/
theorem triggerRebalanceClaim_getElem (nodes : List NodeEntity)
    (conns : List Connection)
    (hdisj : ((nodes.filter (fun n => n.type == NodeType.TOPIC)).map
        (fun t => consumerIdx nodes conns t.id)).Pairwise
        (fun A B => ∀ i ∈ A, i ∉ B))
    (l₁ l₂ : List NodeEntity) (t : NodeEntity)
    (hsplit : nodes.filter (fun n => n.type == NodeType.TOPIC) = l₁ ++ t :: l₂)
    (j gi : Nat) (hj : (consumerIdx nodes conns t.id)[j]? = some gi) :
    (triggerRebalanceClaim nodes conns)[gi]?
      = (nodes[gi]?).map (fullTransform (consumerIdx nodes conns t.id).length
          (jsNat1 t.partitions) j) := by
  have hmem : gi ∈ consumerIdx nodes conns t.id := List.getElem?_mem hj
  have hc : 0 < (consumerIdx nodes conns t.id).length :=
    List.length_pos.mpr (List.ne_nil_of_mem hmem)
  have ht : t ∈ nodes.filter (fun n => n.type == NodeType.TOPIC) := by
    rw [hsplit]
    exact List.mem_append_right _ (List.mem_cons_self _ _)
  rw [hsplit, List.map_append, List.map_cons] at hdisj
  obtain ⟨hd₁, hd₂, hd₁₂⟩ := List.pairwise_append.mp hdisj
  have hut₁ : ∀ u ∈ l₁, ∀ x ∈ consumerIdx nodes conns t.id,
      x ∉ consumerIdx nodes conns u.id := by
    intro u hu x hx hxu
    exact hd₁₂ _ (List.mem_map_of_mem _ hu) _ (List.mem_cons_self _ _) x hxu hx
  have hut₂ : ∀ u ∈ l₂, gi ∉ consumerIdx nodes conns u.id := by
    intro u hu hgiu
    exact (List.pairwise_cons.mp hd₂).1 _ (List.mem_map_of_mem _ hu) gi hmem hgiu
  unfold triggerRebalanceClaim
  dsimp only
  rw [hsplit, List.foldl_append, List.foldl_cons]
  have hrel0 : List.Forall₂ coreEq nodes (nodes.map (condClear nodes conns)) :=
    map_coreEq_forall2 _ (condClear_coreEq nodes conns) nodes
  have hrel1 : List.Forall₂ coreEq nodes
      (l₁.foldl (claimPass conns) (nodes.map (condClear nodes conns))) :=
    forall2_coreEq_trans hrel0 (foldl_claimPass_forall2 conns l₁ _)
  have hclearval : ∀ x ∈ consumerIdx nodes conns t.id,
      (l₁.foldl (claimPass conns) (nodes.map (condClear nodes conns)))[x]?
        = (nodes[x]?).map clearConsumer := by
    intro x hx
    rw [foldl_claimPass_untouched conns nodes l₁ _ x hrel0
      (fun u hu => hut₁ u hu x hx)]
    rw [List.getElem?_map]
    cases hn : nodes[x]? with
    | none => rfl
    | some n =>
        rw [Option.map_some', Option.map_some', Option.some_inj]
        unfold condClear
        rw [if_pos (connected_of_mem_consumerIdx nodes conns t ht x n hx hn)]
  have hstab : consumerIdx
      (l₁.foldl (claimPass conns) (nodes.map (condClear nodes conns))) conns t.id
      = consumerIdx nodes conns t.id :=
    (consumerIdx_congr hrel1 conns t.id).symm
  have hsome : ∀ gi' ∈ consumerIdx nodes conns t.id, ∀ n,
      (l₁.foldl (claimPass conns) (nodes.map (condClear nodes conns)))[gi']? = some n →
      n.assignedPartitions.isSome = true := by
    intro gi' hgi' n hn
    rw [hclearval gi' hgi'] at hn
    cases hl : nodes[gi']? with
    | none => rw [hl] at hn; cases hn
    | some m =>
        rw [hl, Option.map_some', Option.some_inj] at hn
        rw [← hn]
        rfl
  have hj' : (consumerIdx
      (l₁.foldl (claimPass conns) (nodes.map (condClear nodes conns))) conns t.id)[j]?
      = some gi := by
    rw [hstab]
    exact hj
  have hsome' : ∀ gi' ∈ consumerIdx
      (l₁.foldl (claimPass conns) (nodes.map (condClear nodes conns))) conns t.id, ∀ n,
      (l₁.foldl (claimPass conns) (nodes.map (condClear nodes conns)))[gi']? = some n →
      n.assignedPartitions.isSome = true := by
    rw [hstab]
    exact hsome
  have hpass : (claimPass conns
      (l₁.foldl (claimPass conns) (nodes.map (condClear nodes conns))) t)[gi]?
      = (nodes[gi]?).map (fullTransform (consumerIdx nodes conns t.id).length
          (jsNat1 t.partitions) j) := by
    rw [claimPass_getElem_mem conns _ t j gi hj' hsome']
    rw [hstab]
    rw [hclearval gi hmem]
    cases hl : nodes[gi]? with
    | none => rfl
    | some n =>
        simp only [Option.map_some', Option.map_map, Option.some_inj]
        unfold fullTransform clearConsumer
        simp [jsList, Function.comp]
  rw [foldl_claimPass_untouched conns nodes l₂ _ gi
    (forall2_coreEq_trans hrel1 (claimPass_forall2 conns _ t)) hut₂]
  exact hpass

theorem foldl_pass_length (conns : List Connection) (ts : List NodeEntity) :
    ∀ l : List NodeEntity, (ts.foldl (rebalancePass conns) l).length = l.length := by
  induction ts with
  | nil => intro l; rfl
  | cons t ts ih =>
      intro l
      rw [List.foldl_cons, ih, rebalancePass_length]

theorem foldl_claimPass_length (conns : List Connection) (ts : List NodeEntity) :
    ∀ l : List NodeEntity, (ts.foldl (claimPass conns) l).length = l.length := by
  induction ts with
  | nil => intro l; rfl
  | cons t ts ih =>
      intro l
      rw [List.foldl_cons, ih, claimPass_length]

theorem triggerRebalance_length (nodes : List NodeEntity) (conns : List Connection) :
    (triggerRebalance nodes conns).length = nodes.length := by
  unfold triggerRebalance
  exact foldl_pass_length conns _ nodes

theorem triggerRebalanceClaim_length (nodes : List NodeEntity)
    (conns : List Connection) :
    (triggerRebalanceClaim nodes conns).length = nodes.length := by
  unfold triggerRebalanceClaim
  dsimp only
  rw [foldl_claimPass_length, List.length_map]

theorem c2_counterexample_multi_topic_consumer :
    triggerRebalance c2cxNodes c2cxConns ≠ triggerRebalanceClaim c2cxNodes c2cxConns := by
  decide

/-- C2: Whenever no consumer is connected to more than one topic — i.e. the
index sets of the topics' connected consumers are pairwise disjoint — the
rebalance implemented in `App.tsx` (which clears each topic's consumers
immediately before that topic's reassignment) produces exactly the same node
list as the claimed algorithm that first clears every consumer connected to
any topic and only then reassigns topic by topic. -/
theorem c2_rebalance_reset_refinement (nodes : List NodeEntity)
    (conns : List Connection)
    (hdisj : ((nodes.filter (fun n => n.type == NodeType.TOPIC)).map
        (fun t => consumerIdx nodes conns t.id)).Pairwise
        (fun A B => ∀ i ∈ A, i ∉ B)) :
    triggerRebalance nodes conns = triggerRebalanceClaim nodes conns := by
  apply List.ext_getElem?
  intro gi
  by_cases hin : ∃ t ∈ nodes.filter (fun n => n.type == NodeType.TOPIC),
      gi ∈ consumerIdx nodes conns t.id
  · rcases hin with ⟨t, ht, hgi⟩
    rcases List.mem_iff_append.mp ht with ⟨l₁, l₂, hsplit⟩
    rcases List.mem_iff_getElem?.mp hgi with ⟨j, hj⟩
    rw [triggerRebalance_getElem nodes conns hdisj l₁ l₂ t hsplit j gi hj,
      triggerRebalanceClaim_getElem nodes conns hdisj l₁ l₂ t hsplit j gi hj]
  · push_neg at hin
    rw [triggerRebalance_getElem_untouched nodes conns gi hin,
      triggerRebalanceClaim_getElem_untouched nodes conns gi hin]

theorem c2_rebalance_reset_refinement_witness :
    ((c2wNodes.filter (fun n => n.type == NodeType.TOPIC)).map
        (fun t => consumerIdx c2wNodes c2wConns t.id)).Pairwise
        (fun A B => ∀ i ∈ A, i ∉ B) ∧
      triggerRebalance c2wNodes c2wConns = triggerRebalanceClaim c2wNodes c2wConns :=
  ⟨by decide, c2_rebalance_reset_refinement c2wNodes c2wConns (by decide)⟩

theorem sum_map_ite_zero (A a : Nat) : ∀ l : List Nat, a ∉ l →
    (l.map (fun j => if a == j then A else 0)).sum = 0 := by
  intro l
  induction l with
  | nil => intro _; rfl
  | cons b bs ih =>
      intro h
      have hne : ¬ ((a == b) = true) := by
        simp only [beq_iff_eq]
        intro he
        exact h (by rw [he]; exact List.mem_cons_self b bs)
      rw [List.map_cons, List.sum_cons, if_neg hne,
        ih (fun hm => h (List.mem_cons_of_mem b hm))]

theorem sum_map_ite_single (A a : Nat) : ∀ l : List Nat, l.Nodup → a ∈ l →
    (l.map (fun j => if a == j then A else 0)).sum = A := by
  intro l
  induction l with
  | nil => intro _ h; cases h
  | cons b bs ih =>
      intro hnd hmem
      rw [List.map_cons, List.sum_cons]
      rcases List.mem_cons.mp hmem with he | hm
      · rw [if_pos (by simp [he]),
          sum_map_ite_zero A a bs (by rw [he]; exact (List.nodup_cons.mp hnd).1),
          Nat.add_zero]
      · have hne : ¬ ((a == b) = true) := by
          simp only [beq_iff_eq]
          intro he
          exact (List.nodup_cons.mp hnd).1 (he ▸ hm)
        rw [if_neg hne, ih (List.nodup_cons.mp hnd).2 hm, Nat.zero_add]

theorem count_bucket (c p x j : Nat) :
    (bucket c p j).count x = if x % c == j then (List.range p).count x else 0 := by
  unfold bucket
  by_cases h : x % c = j
  · rw [if_pos (by simpa using h)]
    exact @List.count_filter Nat _ _ (fun i => i % c == j) x (List.range p)
      (by simpa using h)
  · rw [if_neg (by simpa using h)]
    refine List.count_eq_zero.mpr ?_
    intro hmem
    have hpx := List.of_mem_filter hmem
    simp only [beq_iff_eq] at hpx
    exact h hpx

theorem count_range_eq (p x : Nat) :
    (List.range p).count x = if x < p then 1 else 0 := by
  by_cases h : x < p
  · rw [if_pos h]
    exact List.count_eq_one_of_mem (List.nodup_range p) (List.mem_range.mpr h)
  · rw [if_neg h]
    exact List.count_eq_zero.mpr (fun hm => h (List.mem_range.mp hm))

theorem buckets_flatten_perm (c p : Nat) (hc : 0 < c) :
    (((List.range c).map (fun j => bucket c p j)).flatten).Perm (List.range p) := by
  refine List.perm_iff_count.mpr ?_
  intro x
  rw [List.count_flatten, List.map_map]
  have hcomp : (List.count x ∘ fun j => bucket c p j)
      = fun j => if x % c == j then (List.range p).count x else 0 := by
    funext j
    exact count_bucket c p x j
  rw [hcomp]
  exact sum_map_ite_single _ _ (List.range c) (List.nodup_range c)
    (List.mem_range.mpr (Nat.mod_lt x hc))

theorem bucket_eq_nil_of_le (c p j : Nat) (h : p ≤ j) : bucket c p j = [] := by
  unfold bucket
  refine List.filter_eq_nil.mpr ?_
  intro i hi
  simp only [beq_iff_eq]
  intro he
  have h1 : i < p := List.mem_range.mp hi
  have h2 : i % c ≤ i := Nat.mod_le i c
  omega

theorem bucket_ne_nil_of_lt (c p j : Nat) (hjc : j < c) (hjp : j < p) :
    bucket c p j ≠ [] := by
  have hmem : j ∈ bucket c p j := by
    unfold bucket
    refine List.mem_filter.mpr ⟨List.mem_range.mpr hjp, ?_⟩
    simp [Nat.mod_eq_of_lt hjc]
  exact List.ne_nil_of_mem hmem

theorem length_filter_bucket_nil (c p : Nat) (hp : p ≤ c) :
    ((List.range c).filter (fun j => bucket c p j == [])).length = c - p := by
  have hcp : c = p + (c - p) := by omega
  nth_rewrite 2 [hcp]
  rw [List.range_add, List.filter_append]
  have h1 : (List.range p).filter (fun j => bucket c p j == []) = [] := by
    refine List.filter_eq_nil.mpr ?_
    intro j hj
    simp only [beq_iff_eq]
    exact bucket_ne_nil_of_lt c p j
      (lt_of_lt_of_le (List.mem_range.mp hj) hp) (List.mem_range.mp hj)
  have h2 : ((List.range (c - p)).map (fun x => p + x)).filter
      (fun j => bucket c p j == [])
      = (List.range (c - p)).map (fun x => p + x) := by
    refine List.filter_eq_self.mpr ?_
    intro j hj
    rcases List.mem_map.mp hj with ⟨k, hk, rfl⟩
    simp only [beq_iff_eq]
    exact bucket_eq_nil_of_le c p (p + k) (Nat.le_add_right p k)
  rw [h1, h2, List.nil_append, List.length_map, List.length_range]

theorem length_filter_map_eq (q : β → Bool) (f : α → β) (g : Nat → β)
    (cs : List α) (rs : List Nat) (heq : cs.map f = rs.map g) :
    (cs.filter (fun x => q (f x))).length = (rs.filter (fun j => q (g j))).length := by
  rw [← List.countP_eq_length_filter, ← List.countP_eq_length_filter]
  calc cs.countP (fun x => q (f x)) = (cs.map f).countP q :=
        (List.countP_map q f cs).symm
    _ = (rs.map g).countP q := by rw [heq]
    _ = rs.countP (fun j => q (g j)) := List.countP_map q g rs

theorem triggerRebalance_consumer_map (nodes : List NodeEntity)
    (conns : List Connection)
    (hdisj : ((nodes.filter (fun n => n.type == NodeType.TOPIC)).map
        (fun t => consumerIdx nodes conns t.id)).Pairwise
        (fun A B => ∀ i ∈ A, i ∉ B))
    (l₁ l₂ : List NodeEntity) (t : NodeEntity)
    (hsplit : nodes.filter (fun n => n.type == NodeType.TOPIC) = l₁ ++ t :: l₂) :
    (consumerIdx nodes conns t.id).map (fun gi =>
        ((triggerRebalance nodes conns)[gi]?).bind (fun n => n.assignedPartitions))
      = (List.range (consumerIdx nodes conns t.id).length).map (fun j =>
          some (bucket (consumerIdx nodes conns t.id).length
            (jsNat1 t.partitions) j)) := by
  apply List.ext_getElem?
  intro j
  rw [List.getElem?_map, List.getElem?_map]
  cases hj : (consumerIdx nodes conns t.id)[j]? with
  | none =>
      have hjlen : (consumerIdx nodes conns t.id).length ≤ j :=
        List.getElem?_eq_none_iff.mp hj
      have hr : (List.range (consumerIdx nodes conns t.id).length)[j]? = none := by
        rw [List.getElem?_eq_none_iff, List.length_range]
        exact hjlen
      rw [hr]
      rfl
  | some gi =>
      have hjlt : j < (consumerIdx nodes conns t.id).length := by
        obtain ⟨hlt, _⟩ := List.getElem?_eq_some.mp hj
        exact hlt
      rw [List.getElem?_range hjlt]
      rw [Option.map_some', Option.map_some']
      rw [triggerRebalance_getElem nodes conns hdisj l₁ l₂ t hsplit j gi hj]
      have hgi : gi < nodes.length := by
        have hmem : gi ∈ consumerIdx nodes conns t.id := List.getElem?_mem hj
        exact idxWhere_lt_length nodes gi hmem
      cases hn : nodes[gi]? with
      | none =>
          exact absurd (List.getElem?_eq_none_iff.mp hn) (by omega)
      | some n => rfl

theorem c3_counterexample_later_topic_overwrites :
    (consumerIdx c3cxNodes c3cxConns c3cxTopic1.id)[1]? = some 3 ∧
    jsNat1 c3cxTopic1.partitions = 2 ∧
    (consumerIdx c3cxNodes c3cxConns c3cxTopic1.id).length = 2 ∧
    bucket 2 2 1 = [1] ∧
    ((triggerRebalance c3cxNodes c3cxConns)[3]?).bind (fun n => n.assignedPartitions)
      = some [0] := by
  decide

/-- C3: Provided the index sets of the topics' connected consumers are
pairwise disjoint, for every topic `t` with `p ≥ 1` partitions and `c > 0`
connected consumers (in store order): the consumer at position `j` ends the
rebalance holding exactly the partition indices `{i | i < p ∧ i % c = j}`;
the concatenation of the assignment sets over those consumers is a
permutation of `{0, ..., p-1}` (each index exactly once); and when `p < c`
exactly `c - p` of those consumers end with an empty assignment set. -/
theorem c3_partition_distribution (nodes : List NodeEntity)
    (conns : List Connection)
    (hdisj : ((nodes.filter (fun n => n.type == NodeType.TOPIC)).map
        (fun t => consumerIdx nodes conns t.id)).Pairwise
        (fun A B => ∀ i ∈ A, i ∉ B))
    (l₁ l₂ : List NodeEntity) (t : NodeEntity)
    (hsplit : nodes.filter (fun n => n.type == NodeType.TOPIC) = l₁ ++ t :: l₂)
    (hc : 0 < (consumerIdx nodes conns t.id).length) :
    ((consumerIdx nodes conns t.id).map (fun gi =>
        ((triggerRebalance nodes conns)[gi]?).bind (fun n => n.assignedPartitions))
      = (List.range (consumerIdx nodes conns t.id).length).map (fun j =>
          some (bucket (consumerIdx nodes conns t.id).length
            (jsNat1 t.partitions) j)))
    ∧ ((consumerIdx nodes conns t.id).map (fun gi =>
        jsList (((triggerRebalance nodes conns)[gi]?).bind
          (fun n => n.assignedPartitions)))).flatten.Perm
        (List.range (jsNat1 t.partitions))
    ∧ (jsNat1 t.partitions < (consumerIdx nodes conns t.id).length →
        ((consumerIdx nodes conns t.id).filter (fun gi =>
            jsList (((triggerRebalance nodes conns)[gi]?).bind
              (fun n => n.assignedPartitions)) == [])).length
          = (consumerIdx nodes conns t.id).length - jsNat1 t.partitions) := by
  have heq := triggerRebalance_consumer_map nodes conns hdisj l₁ l₂ t hsplit
  refine ⟨heq, ?_, ?_⟩
  · have hmap := congrArg (List.map jsList) heq
    rw [List.map_map, List.map_map] at hmap
    have hmap' : (consumerIdx nodes conns t.id).map (fun gi =>
        jsList (((triggerRebalance nodes conns)[gi]?).bind
          (fun n => n.assignedPartitions)))
        = (List.range (consumerIdx nodes conns t.id).length).map (fun j =>
            bucket (consumerIdx nodes conns t.id).length (jsNat1 t.partitions) j) :=
      hmap
    rw [hmap']
    exact buckets_flatten_perm _ _ hc
  · intro hp
    calc ((consumerIdx nodes conns t.id).filter (fun gi =>
            jsList (((triggerRebalance nodes conns)[gi]?).bind
              (fun n => n.assignedPartitions)) == [])).length
        = ((List.range (consumerIdx nodes conns t.id).length).filter (fun j =>
            bucket (consumerIdx nodes conns t.id).length (jsNat1 t.partitions) j
              == [])).length :=
          length_filter_map_eq (fun x => jsList x == [])
            (fun gi => ((triggerRebalance nodes conns)[gi]?).bind
              (fun n => n.assignedPartitions))
            (fun j => some (bucket (consumerIdx nodes conns t.id).length
              (jsNat1 t.partitions) j))
            (consumerIdx nodes conns t.id)
            (List.range (consumerIdx nodes conns t.id).length) heq
      _ = (consumerIdx nodes conns t.id).length - jsNat1 t.partitions :=
          length_filter_bucket_nil _ _ (Nat.le_of_lt hp)

theorem c3_partition_distribution_witness :
    (((c3wNodes.filter (fun n => n.type == NodeType.TOPIC)).map
        (fun t => consumerIdx c3wNodes c3wConns t.id)).Pairwise
        (fun A B => ∀ i ∈ A, i ∉ B)) ∧
    c3wNodes.filter (fun n => n.type == NodeType.TOPIC) = [] ++ c3wTopic :: [] ∧
    0 < (consumerIdx c3wNodes c3wConns c3wTopic.id).length ∧
    (((consumerIdx c3wNodes c3wConns c3wTopic.id).map (fun gi =>
        ((triggerRebalance c3wNodes c3wConns)[gi]?).bind
          (fun n => n.assignedPartitions))
      = (List.range (consumerIdx c3wNodes c3wConns c3wTopic.id).length).map (fun j =>
          some (bucket (consumerIdx c3wNodes c3wConns c3wTopic.id).length
            (jsNat1 c3wTopic.partitions) j)))
    ∧ ((consumerIdx c3wNodes c3wConns c3wTopic.id).map (fun gi =>
        jsList (((triggerRebalance c3wNodes c3wConns)[gi]?).bind
          (fun n => n.assignedPartitions)))).flatten.Perm
        (List.range (jsNat1 c3wTopic.partitions))
    ∧ (jsNat1 c3wTopic.partitions < (consumerIdx c3wNodes c3wConns c3wTopic.id).length →
        ((consumerIdx c3wNodes c3wConns c3wTopic.id).filter (fun gi =>
            jsList (((triggerRebalance c3wNodes c3wConns)[gi]?).bind
              (fun n => n.assignedPartitions)) == [])).length
          = (consumerIdx c3wNodes c3wConns c3wTopic.id).length
            - jsNat1 c3wTopic.partitions)) :=
  ⟨by decide, by decide, by decide,
    c3_partition_distribution c3wNodes c3wConns (by decide) [] [] c3wTopic
      (by decide) (by decide)⟩
